import Mathlib

/-!
Shallow embedding of the tarlox executor/environment engine
(`src/executor.rs`, `src/executor/environment.rs`, `src/executor/callable.rs`,
`src/executor/class.rs`, `src/executor/object.rs`, `src/resolver.rs`,
`src/main.rs`).

Modelling conventions:
* `rug::Float` (256-bit) numbers are modelled as `Int`; every number
  occurring in the claims and their programs is a small integer, on which the
  two agree exactly (division, which no claim exercises, is the one operation
  where the stand-in differs from float semantics).
* The `ahash` 64-bit name hash (`env_hash`) is modelled as the identity on
  strings (collision-free hashing assumption), so environment maps are keyed
  by the raw identifier text, with `env_hash("This")` (`THIS_KEY`) modelled as
  the reserved string "This".
* Shared mutable structures (`Arc<Environment>` with a `DashMap`, instance
  field tables, memoization caches) live in an explicit store (`LoxState`);
  an `Arc<Environment>` is a handle (index) into `LoxState.envs`.  Handles are
  allocated in order, so runs are deterministic.
* `rand::random()` identifiers are modelled by a counter in the state.
* The worker pool: `environment::put` schedules a closure on `WORKERS`; the
  model records the scheduled computation in `LoxState.tasks` (the cell stays
  `Pending` exactly as in the code).  A read that blocks on a `Pending` cell
  (condition-variable wait with no producer able to run in this sequential
  model) is mapped to the distinguished outcome `LoxError.blockedPending`;
  a Rust `panic!` / `.unwrap()` on `None` / `unreachable!` is mapped to
  `LoxError.panicked`.  Neither occurs in any confirmed-claim execution.
-/

/-- Binary/unary/logical operators, from `syntax/expression.rs` (`Operator`). -/
inductive LoxOp where
  | equality | notEqual | minus | plus | star | slash | notOp
  | smaller | smallerOrEqual | greater | greaterOrEqual | isReady | orOp | andOp
deriving DecidableEq, Repr

/-- Token kinds occurring in the AST, from `scanner/token_type.rs`
(restricted to the kinds the executor and resolver inspect). -/
inductive LoxTokenType where
  | identifier (name : String)
  | thisKw
  | superKw
deriving DecidableEq, Repr

/-- A token: process-unique id, kind, and source line (`scanner/token.rs`). -/
structure LoxToken where
  id : Nat
  kind : LoxTokenType
  line : Nat
deriving DecidableEq, Repr

/-- `format!("{:?}", token.kind)`: the Rust `Debug` rendering of the token
kind, used by the resolver as scope key and in expression display strings. -/
def LoxToken.keyStr : LoxToken → String
  | ⟨_, .identifier n, _⟩ => "Identifier(\"" ++ n ++ "\")"
  | ⟨_, .thisKw, _⟩ => "This"
  | ⟨_, .superKw, _⟩ => "Super"

/-- Literals, from `syntax/expression.rs` (`LoxLiteral`). -/
inductive LoxLit where
  | num (n : Int)
  | str (s : String)
  | bool (b : Bool)
  | nil
deriving DecidableEq, Repr

mutual
/-- Expressions, from `syntax/expression.rs` as consumed by
`Executor::eval_expression`. -/
inductive LoxExpr where
  | binary (left : LoxExpr) (op : LoxOp) (right : LoxExpr)
  | unary (op : LoxOp) (right : LoxExpr)
  | grouping (inner : LoxExpr)
  | literal (l : LoxLit)
  | logical (left : LoxExpr) (op : LoxOp) (right : LoxExpr)
  | variable (tok : LoxToken)
  | assign (tok : LoxToken) (value : LoxExpr)
  | call (callee : LoxExpr) (paren : LoxToken) (args : LoxExprList)
  | lambda (params : List LoxToken) (body : LoxStmt)
  | get (obj : LoxExpr) (name : LoxToken)
  | set (obj : LoxExpr) (name : LoxToken) (value : LoxExpr)
  | thisE (tok : LoxToken)
  | superE (keyword : LoxToken) (method : LoxToken)

/-- A list of expressions (hand-rolled to keep the mutual block simple). -/
inductive LoxExprList where
  | nil
  | cons (e : LoxExpr) (rest : LoxExprList)

/-- An optional expression. -/
inductive LoxOptExpr where
  | noneE
  | someE (e : LoxExpr)

/-- Statements, from `syntax/statement.rs` as consumed by
`Executor::eval_statement`. -/
inductive LoxStmt where
  | print (e : LoxExpr)
  | stmtExpression (e : LoxExpr)
  | varDecl (tok : LoxToken) (init : LoxOptExpr)
  | awaitVarDecl (tok : LoxToken) (init : LoxExpr)
  | block (body : LoxStmtList)
  | ifS (cond : LoxExpr) (thenB : LoxStmt) (elseB : LoxOptStmt)
  | whileS (cond : LoxExpr) (body : LoxStmt)
  | funDecl (name : LoxToken) (params : List LoxToken) (body : LoxStmt)
  | ret (e : LoxOptExpr)
  | classDecl (name : LoxToken) (superclass : LoxOptExpr) (methods : LoxStmtList)

/-- A list of statements. -/
inductive LoxStmtList where
  | nil
  | cons (s : LoxStmt) (rest : LoxStmtList)

/-- An optional statement. -/
inductive LoxOptStmt where
  | noneS
  | someS (s : LoxStmt)
end

/-- Rust `Display` for `Operator` (only the arms used in display strings). -/
def LoxOp.keyStr : LoxOp → String
  | .equality => "==" | .notEqual => "!=" | .minus => "-" | .plus => "+"
  | .star => "*" | .slash => "/" | .notOp => "!" | .smaller => "<"
  | .smallerOrEqual => "<=" | .greater => ">" | .greaterOrEqual => ">="
  | .isReady => "is_ready" | .orOp => "or" | .andOp => "and"

/-- Rust `Display` for `LoxLiteral`. -/
def LoxLit.keyStr : LoxLit → String
  | .num n => toString n
  | .str s => "\"" ++ s ++ "\""
  | .bool b => toString b
  | .nil => "nil"

mutual
/-- `expr.to_string()`: the Rust `Display` rendering of an expression, used
as the second component of resolver-table keys (`Executor::resolve` /
`Executor::lookup_variable`).  Token ids are process-unique, so only
injectivity per id matters; this mirrors the `Display` impl of
`syntax/expression.rs`. -/
def LoxExpr.keyStr : LoxExpr → String
  | .binary l op r => "(" ++ op.keyStr ++ " " ++ l.keyStr ++ " " ++ r.keyStr ++ ")"
  | .unary op r => "(" ++ op.keyStr ++ " " ++ r.keyStr ++ ")"
  | .grouping i => "(grouping " ++ i.keyStr ++ ")"
  | .literal l => l.keyStr
  | .logical l op r => "(" ++ op.keyStr ++ " " ++ l.keyStr ++ " " ++ r.keyStr ++ ")"
  | .variable t => "(var " ++ t.keyStr ++ ")"
  | .assign t v => "(assign " ++ t.keyStr ++ " " ++ v.keyStr ++ ")"
  | .call c _ args => "(" ++ c.keyStr ++ " #" ++ args.keyStr ++ ")"
  | .lambda params _ => "<lambda arity: " ++ toString params.length ++ ">"
  | .get o n => "(" ++ o.keyStr ++ " " ++ n.keyStr ++ ")"
  | .set o n v => "(set " ++ o.keyStr ++ " " ++ n.keyStr ++ " " ++ v.keyStr ++ ")"
  | .thisE t => "(this " ++ t.keyStr ++ ")"
  | .superE k m => "(super " ++ k.keyStr ++ " " ++ m.keyStr ++ ")"

/-- Display of an argument list. -/
def LoxExprList.keyStr : LoxExprList → String
  | .nil => ""
  | .cons e rest => e.keyStr ++ ";" ++ rest.keyStr
end

/-- Length of an expression list. -/
def LoxExprList.length : LoxExprList → Nat
  | .nil => 0
  | .cons _ rest => rest.length + 1

mutual
/-- A class: name, optional superclass, method table
(`executor/class.rs`, `LoxClass`). -/
inductive LoxClass where
  | mk (name : String) (superclass : LoxOptClass) (methods : LoxMethodList)

/-- `Option<Arc<LoxClass>>` (hand-rolled to avoid nesting in the mutual block). -/
inductive LoxOptClass where
  | none
  | some (c : LoxClass)

/-- The method table `AHashMap<String, LoxCallable>`, as an association list
in insertion order with overwriting insert. -/
inductive LoxMethodList where
  | nil
  | cons (name : String) (m : LoxCallable) (rest : LoxMethodList)

/-- Callables (`executor/callable.rs`, `LoxCallable`).  `cache` is a handle
into `LoxState.caches` (`None` for methods), `closure` a handle into
`LoxState.envs`, `thisObj` the bound instance if any. -/
inductive LoxCallable where
  | function (id : Nat) (parameters : List LoxToken) (body : LoxStmt)
      (cache : Option Nat) (thisObj : LoxOptInst) (isInitializer : Bool)
      (closure : Nat)
  | nativeFunction (arity : Nat) (tag : String)
  | classC (cls : LoxClass)

/-- `Option<LoxObject>` for the bound `this`; in the code the bound object is
always an `Instance`, represented here as (identity id, class, field-table
handle). -/
inductive LoxOptInst where
  | none
  | some (iid : Nat) (cls : LoxClass) (fields : Nat)
end

/-- Runtime values (`executor/object.rs`, `LoxObject`).  `instance` carries
the identity id, the class, and the handle of its concurrent field table. -/
inductive LoxObject where
  | nil
  | instance (iid : Nat) (cls : LoxClass) (fields : Nat)
  | number (n : Int)
  | loxString (s : String)
  | boolean (b : Bool)
  | callable (c : LoxCallable)

/-- Errors and control signals (`errors/lox_error.rs`, `LoxError`), plus the
three modelling-only outcomes described in the file header. -/
inductive LoxError where
  | parseError (line : Option Nat) (msg : String)
  | runtimeError (line : Option Nat) (msg : String)
  | typeError (exceptedType : String)
  | internalError (msg : String)
  | returnSignal (env : Nat) (e : LoxOptExpr)
  | blockedPending
  | panicked
  | outOfFuel

/-- A binding cell (`executor/environment.rs`, `PackagedObject`).  The
`Mutex<bool>`/`Condvar` pair of the `Pending` state is synchronization
machinery with no sequential content. -/
inductive PackagedObject where
  | pending
  | ready (r : Except LoxError LoxObject)

/-- One environment node: own bindings plus optional enclosing environment
(`executor/environment.rs`, `Environment`). -/
structure EnvNode where
  values : List (String × PackagedObject)
  enclosing : Option Nat

/-- A computation scheduled on the worker pool by `environment::put`:
the overlay (sub-)environment the worker evaluates in, the expression, the
environment and key whose `Pending` cell it will fill. -/
structure LoxTask where
  subEnv : Nat
  targetEnv : Nat
  key : String
  expr : LoxExpr

/-- The shared mutable store: environments, instance field tables,
memoization caches, scheduled worker tasks, the `rand::random()` counter and
the `print` output channel. -/
structure LoxState where
  envs : List EnvNode
  insts : List (List (String × LoxObject))
  caches : List (List (List String × LoxObject))
  tasks : List LoxTask
  nextId : Nat
  output : List String

/-- The resolver side table `locals` (`Executor::resolve`): keyed by
`(token-id, expr.to_string())`, value the scope distance. -/
abbrev LoxLocals := List ((Nat × String) × Nat)

/-- An `Executor` (`executor.rs`): just the current environment handle; the
`locals` table and worker-pool handle are shared and passed separately. -/
structure LoxExec where
  environment : Nat

/-- Result of an evaluation step: `Result` value plus the updated store. -/
abbrev LoxOut (α : Type) := Except LoxError α × LoxState

/-- Association-list lookup (DashMap `get` on one map). -/
def alistGet {α : Type} (l : List (String × α)) (k : String) : Option α :=
  match l with
  | [] => Option.none
  | (k', v) :: rest => if k' = k then Option.some v else alistGet rest k

/-- Association-list overwriting insert (DashMap `insert`). -/
def alistInsert {α : Type} (l : List (String × α)) (k : String) (v : α) :
    List (String × α) :=
  match l with
  | [] => [(k, v)]
  | (k', v') :: rest =>
      if k' = k then (k, v) :: rest else (k', v') :: alistInsert rest k v

/-- Association-list removal (DashMap `remove`), returning the removed pair. -/
def alistRemove {α : Type} (l : List (String × α)) (k : String) :
    Option (String × α) × List (String × α) :=
  match l with
  | [] => (Option.none, [])
  | (k', v') :: rest =>
      if k' = k then (Option.some (k', v'), rest)
      else
        match alistRemove rest k with
        | (found, rest') => (found, (k', v') :: rest')

/-- Update the list element at an index (no-op when out of range). -/
def listModify {α : Type} (l : List α) (i : Nat) (f : α → α) : List α :=
  match l, i with
  | [], _ => []
  | x :: rest, 0 => f x :: rest
  | x :: rest, Nat.succ j => x :: listModify rest j f

/-- Truthiness: everything except `Nil` and `Boolean(false)`
(`impl From<&LoxObject> for bool`). -/
def LoxObject.truthy : LoxObject → Bool
  | .nil => false
  | .boolean false => false
  | _ => true

/-- Arity of a callable (`LoxCallable::arity`); classes take the arity of
their `init` method (after the class is defined, mutually with
`find_method`). -/
def LoxClass.findMethodIn : LoxMethodList → String → Option LoxCallable
  | .nil, _ => Option.none
  | .cons n m rest, k =>
      if n = k then Option.some m else LoxClass.findMethodIn rest k

/-- `LoxClass::find_method`: own table first, then the superclass chain. -/
def LoxClass.findMethod : LoxClass → String → Option LoxCallable
  | .mk _ sup ms, k =>
      match LoxClass.findMethodIn ms k, sup with
      | Option.some m, _ => Option.some m
      | Option.none, .some sc => LoxClass.findMethod sc k
      | Option.none, .none => Option.none

/-- `LoxCallable::arity`.  For a class it is the arity of its `init` method;
method tables are built by `new_method` and therefore contain only
`Function` callables, so the nested-class arm (unreachable) is flattened to
avoid non-structural recursion. -/
def LoxCallable.arity : LoxCallable → Nat
  | .function _ params _ _ _ _ _ => params.length
  | .nativeFunction a _ => a
  | .classC cls =>
      match cls.findMethod "init" with
      | Option.none => 0
      | Option.some (.function _ params _ _ _ _ _) => params.length
      | Option.some (.nativeFunction a _) => a
      | Option.some (.classC _) => 0

/-- Stand-in for the `rug::Float` 256-bit decimal rendering with trailing
zeros trimmed (`impl ToString for LoxObject`, `Number` arm); agrees with the
code on the integers that occur in cache keys and output here
(`0 ↦ "0"`, `n ↦ "n"`), and is injective. -/
def numberToString (n : Int) : String :=
  if n = 0 then "0" else toString n

/-- `impl ToString for LoxObject` (used by `print` and as memo-cache key). -/
def LoxObject.toDisplay : LoxObject → String
  | .nil => "nil"
  | .loxString s => s
  | .number n => numberToString n
  | .boolean b => toString b
  | .callable (.classC (.mk n _ _)) => "#<class " ++ n ++ ">"
  | .callable c => "<fun arity: " ++ toString c.arity ++ ">"
  | .instance iid (.mk n _ _) _ => "#<" ++ n ++ " instance as " ++ toString iid ++ ">"

/-- Method-name list of a class, for `PartialEq for LoxClass`
(`methods.keys().eq(...)`). -/
def LoxMethodList.keys : LoxMethodList → List String
  | .nil => []
  | .cons n _ rest => n :: rest.keys

/-- `PartialEq for LoxClass`: same name and same method keys. -/
def LoxClass.beq : LoxClass → LoxClass → Bool
  | .mk n _ ms, .mk n' _ ms' => n = n' && ms.keys = ms'.keys

/-- `PartialEq for LoxCallable` (via `Hash`): the hash covers the arity and
then the function id / class name / native function pointer; under the
collision-free-hash assumption this is componentwise equality within a
variant and inequality across variants. -/
def LoxCallable.beq (a b : LoxCallable) : Bool :=
  match a, b with
  | .function i _ _ _ _ _ _, .function i' _ _ _ _ _ _ =>
      a.arity = b.arity && i = i'
  | .nativeFunction _ t, .nativeFunction _ t' =>
      a.arity = b.arity && t = t'
  | .classC (.mk n _ _), .classC (.mk n' _ _) =>
      a.arity = b.arity && n = n'
  | _, _ => false

/-- `PartialEq for LoxObject`: instances by identity id, callables via their
hash-based equality, other variants by value, mixed variants unequal. -/
def LoxObject.beq : LoxObject → LoxObject → Bool
  | .nil, .nil => true
  | .instance i _ _, .instance i' _ _ => i = i'
  | .number a, .number b => a = b
  | .loxString a, .loxString b => a = b
  | .boolean a, .boolean b => a = b
  | .callable a, .callable b => a.beq b
  | _, _ => false

/-- `LoxObject::is_equal`: `Nil == Nil`, `Nil` equals nothing else, the rest
via `PartialEq`. -/
def LoxObject.isEqual (l r : LoxObject) : LoxObject :=
  match l, r with
  | .nil, .nil => .boolean true
  | .nil, _ => .boolean false
  | _, _ => .boolean (l.beq r)

/-- `LoxObject::is_not_equal`. -/
def LoxObject.isNotEqual (l r : LoxObject) : LoxObject :=
  match l.isEqual r with
  | .boolean b => .boolean (!b)
  | _ => .boolean false

/-- `impl ops::Add for LoxObject`: a `String` on the left concatenates with
the display string of any right operand; otherwise both must be `Number`. -/
def LoxObject.add (l r : LoxObject) : Except LoxError LoxObject :=
  match l, r with
  | .loxString s, r => .ok (.loxString (s ++ r.toDisplay))
  | .number a, .number b => .ok (.number (a + b))
  | _, _ => .error (.typeError "Number")

/-- `impl ops::Sub for LoxObject`. -/
def LoxObject.sub (l r : LoxObject) : Except LoxError LoxObject :=
  match l, r with
  | .number a, .number b => .ok (.number (a - b))
  | _, _ => .error (.typeError "Number")

/-- `impl ops::Mul for LoxObject`. -/
def LoxObject.mul (l r : LoxObject) : Except LoxError LoxObject :=
  match l, r with
  | .number a, .number b => .ok (.number (a * b))
  | _, _ => .error (.typeError "Number")

/-- `impl ops::Div for LoxObject`.  Integer division stands in for 256-bit
float division; no claim and no verified program divides. -/
def LoxObject.div (l r : LoxObject) : Except LoxError LoxObject :=
  match l, r with
  | .number a, .number b => .ok (.number (a / b))
  | _, _ => .error (.typeError "Number")

/-- `LoxObject::is_greater`: `Number`-only comparison. -/
def LoxObject.isGreater (l r : LoxObject) : Except LoxError LoxObject :=
  match l, r with
  | .number a, .number b => .ok (.boolean (decide (b < a)))
  | _, _ => .error (.typeError "Number")

/-- `LoxObject::is_greater_equal` = `is_greater ||` `is_equal`. -/
def LoxObject.isGreaterEqual (l r : LoxObject) : Except LoxError LoxObject :=
  match l.isGreater r with
  | .error e => .error e
  | .ok g => .ok (.boolean (g.truthy || (l.isEqual r).truthy))

/-- `LoxObject::is_less`. -/
def LoxObject.isLess (l r : LoxObject) : Except LoxError LoxObject :=
  match l, r with
  | .number a, .number b => .ok (.boolean (decide (a < b)))
  | _, _ => .error (.typeError "Number")

/-- `LoxObject::is_less_equal` = `is_less ||` `is_equal`. -/
def LoxObject.isLessEqual (l r : LoxObject) : Except LoxError LoxObject :=
  match l.isLess r with
  | .error e => .error e
  | .ok g => .ok (.boolean (g.truthy || (l.isEqual r).truthy))

/-- `LoxObject::apply_negative` (unary minus): `Number` only. -/
def LoxObject.applyNegative : LoxObject → Except LoxError LoxObject
  | .number a => .ok (.number (-a))
  | _ => .error (.typeError "Number")

/-- Fetch an environment node by handle. -/
def LoxState.envNode (st : LoxState) (h : Nat) : Option EnvNode :=
  st.envs[h]?

/-- `environment.values.get(&key)` on one node (no parent walk). -/
def LoxState.envGetLocal (st : LoxState) (h : Nat) (k : String) :
    Option PackagedObject :=
  match st.envNode h with
  | Option.none => Option.none
  | Option.some nd => alistGet nd.values k

/-- `environment.values.insert(key, cell)` on one node. -/
def LoxState.envInsert (st : LoxState) (h : Nat) (k : String)
    (c : PackagedObject) : LoxState :=
  let envs' := listModify st.envs h
    (fun nd => { nd with values := alistInsert nd.values k c })
  { st with envs := envs' }

/-- `environment.values.remove(&key)` on one node, returning the removed
pair. -/
def LoxState.envRemoveLocal (st : LoxState) (h : Nat) (k : String) :
    Option (String × PackagedObject) × LoxState :=
  match st.envNode h with
  | Option.none => (Option.none, st)
  | Option.some nd =>
      match alistRemove nd.values k with
      | (found, values') =>
          let envs' := listModify st.envs h
            (fun nd2 => { nd2 with values := values' })
          (found, { st with envs := envs' })

/-- `Environment::get`: own map, else delegate to the enclosing environment.
Parent handles strictly decrease in every reachable state, so `h + 1` walk
steps always suffice; the fuel only cuts off unreachable cyclic stores. -/
def LoxState.envGetDynAux (st : LoxState) : Nat → Nat → String →
    Option PackagedObject
  | 0, _, _ => Option.none
  | Nat.succ fuel, h, k =>
      match st.envNode h with
      | Option.none => Option.none
      | Option.some nd =>
          match alistGet nd.values k with
          | Option.some c => Option.some c
          | Option.none =>
              match nd.enclosing with
              | Option.none => Option.none
              | Option.some p => st.envGetDynAux fuel p k

/-- `Environment::get` at a handle. -/
def LoxState.envGetDyn (st : LoxState) (h : Nat) (k : String) :
    Option PackagedObject :=
  st.envGetDynAux (h + 1) h k

/-- `Environment::ancestor`: walk exactly `distance` enclosing links. -/
def LoxState.ancestorH (st : LoxState) (h : Nat) : Nat → Option Nat
  | 0 => Option.some h
  | Nat.succ d =>
      match st.envNode h with
      | Option.none => Option.none
      | Option.some nd =>
          match nd.enclosing with
          | Option.none => Option.none
          | Option.some p => st.ancestorH p d

/-- `Environment::get_at`: the ancestor's own map only. -/
def LoxState.getAt (st : LoxState) (h : Nat) (distance : Nat) (k : String) :
    Option PackagedObject :=
  match st.ancestorH h distance with
  | Option.none => Option.none
  | Option.some a => st.envGetLocal a k

/-- `Environment::assign_at`: insert a `Ready(Ok value)` cell at the
ancestor; `None` (and no write at all) when the ancestor walk falls off the
chain. -/
def LoxState.assignAt (st : LoxState) (h : Nat) (distance : Nat) (k : String)
    (v : LoxObject) : Option LoxState :=
  match st.ancestorH h distance with
  | Option.none => Option.none
  | Option.some a => Option.some (st.envInsert a k (.ready (.ok v)))

/-- Allocate a fresh environment (`Arc::new(Environment::...)`). -/
def LoxState.allocEnv (st : LoxState) (nd : EnvNode) : Nat × LoxState :=
  (st.envs.length, { st with envs := st.envs ++ [nd] })

/-- Allocate a fresh empty memoization cache. -/
def LoxState.allocCache (st : LoxState) : Nat × LoxState :=
  (st.caches.length, { st with caches := st.caches ++ [[]] })

/-- Memo-cache lookup by stringified-argument key. -/
def LoxState.cacheGet (st : LoxState) (h : Nat) (k : List String) :
    Option LoxObject :=
  match st.caches[h]? with
  | Option.none => Option.none
  | Option.some entries =>
      (entries.find? (fun e => e.fst = k)).map (fun e => e.snd)

/-- Memo-cache insert. -/
def LoxState.cacheInsert (st : LoxState) (h : Nat) (k : List String)
    (v : LoxObject) : LoxState :=
  let caches' := listModify st.caches h (fun entries => entries ++ [(k, v)])
  { st with caches := caches' }

/-- Allocate a fresh empty instance field table. -/
def LoxState.allocFields (st : LoxState) : Nat × LoxState :=
  (st.insts.length, { st with insts := st.insts ++ [[]] })

/-- Instance field read (`fields.get(name)`). -/
def LoxState.fieldsGet (st : LoxState) (h : Nat) (k : String) :
    Option LoxObject :=
  match st.insts[h]? with
  | Option.none => Option.none
  | Option.some fs => alistGet fs k

/-- Instance field write (`fields.insert(name, value)`). -/
def LoxState.fieldsInsert (st : LoxState) (h : Nat) (k : String)
    (v : LoxObject) : LoxState :=
  let insts' := listModify st.insts h (fun fs => alistInsert fs k v)
  { st with insts := insts' }

/-- `rand::random()`: draw a fresh identity from the deterministic counter. -/
def LoxState.freshId (st : LoxState) : Nat × LoxState :=
  (st.nextId, { st with nextId := st.nextId + 1 })

/-- The `THIS_KEY` binding key, `env_hash(format!("{:?}", TokenType::This))`. -/
def thisKey : String := "This"

/-- Handle of the `GLOBALS` environment (installed before the root). -/
def globalsHandle : Nat := 0

/-- Handle of the executor's root environment (`Environment::default()`). -/
def rootHandle : Nat := 1

/-- The initial store: `GLOBALS` (empty: the only native, `clock`, is outside
every claim) and the root environment. -/
def initState : LoxState :=
  { envs := [⟨[], Option.none⟩, ⟨[], Option.none⟩]
    insts := [], caches := [], tasks := [], nextId := 0, output := [] }

/-- Resolver-table lookup (`locals.get(&(id, expr.to_string()))`). -/
def localsGet (L : LoxLocals) (k : Nat × String) : Option Nat :=
  (L.find? (fun e => e.fst = k)).map (fun e => e.snd)

/-- `Executor::lookup_variable`: the resolved fast path (with its
`.unwrap()`, which panics when the recorded distance misses), falling back
to the dynamic `GLOBALS` lookup when no distance was recorded. -/
def lookupVariable (L : LoxLocals) (st : LoxState) (ex : LoxExec) (id : Nat)
    (key : String) (expr : LoxExpr) : Except LoxError (Option PackagedObject) :=
  match localsGet L (id, expr.keyStr) with
  | Option.some d =>
      match st.getAt ex.environment d key with
      | Option.some c => .ok (Option.some c)
      | Option.none => .error .panicked
  | Option.none => .ok (st.envGetLocal globalsHandle key)

/-- `resolver.rs` `FunctionType`. -/
inductive FunctionType where
  | none | function | method | initializer
deriving DecidableEq, Repr

/-- `resolver.rs` `ClassType`. -/
inductive ClassType where
  | none | cls
deriving DecidableEq, Repr

/-- Resolver state (`resolver.rs`, `Resolver`): the scope stack (innermost
scope last, as in the Rust `Vec`), the current function/class context, and
the accumulated `locals` distance table it writes into the executor. -/
structure Resolver where
  scopes : List (List (String × Bool))
  currentFunction : FunctionType
  currentClass : ClassType
  locals : LoxLocals

/-- `Resolver::new` (pushes the initial top-level scope). -/
def Resolver.new : Resolver :=
  ⟨[[]], .none, .none, []⟩

/-- `begin_scope`. -/
def Resolver.beginScope (rs : Resolver) : Resolver :=
  { rs with scopes := rs.scopes ++ [[]] }

/-- `end_scope`. -/
def Resolver.endScope (rs : Resolver) : Resolver :=
  { rs with scopes := rs.scopes.dropLast }

/-- Replace the innermost scope (Rust `scopes.last_mut()`); no-op when the
stack is empty. -/
def Resolver.modifyLast (rs : Resolver)
    (f : List (String × Bool) → List (String × Bool)) : Resolver :=
  match rs.scopes.getLast? with
  | Option.none => rs
  | Option.some s => { rs with scopes := rs.scopes.dropLast ++ [f s] }

/-- `Resolver::declare`: error on re-declaration in the same scope, panic
(unreachable) on an empty scope stack. -/
def Resolver.declare (rs : Resolver) (name : LoxToken) :
    Except LoxError Resolver :=
  match rs.scopes.getLast? with
  | Option.none => .error .panicked
  | Option.some scope =>
      if (alistGet scope name.keyStr).isSome then
        .error (.parseError (Option.some name.line)
          "Already a variable with this name in this scope.")
      else
        .ok (rs.modifyLast (fun s => alistInsert s name.keyStr false))

/-- `Resolver::define`. -/
def Resolver.define (rs : Resolver) (name : LoxToken) : Resolver :=
  rs.modifyLast (fun s => alistInsert s name.keyStr true)

/-- Index (from the outermost scope) of the innermost scope containing the
key: `scopes.iter().enumerate().rev().find(...)`. -/
def innermostScopeWith : List (List (String × Bool)) → String → Option Nat
  | [], _ => Option.none
  | s :: rest, k =>
      match innermostScopeWith rest k with
      | Option.some i => Option.some (i + 1)
      | Option.none =>
          if (alistGet s k).isSome then Option.some 0 else Option.none

/-- `Resolver::resolve_local`: record
`(expr-id, scopes.len() - 1 - index)` in the executor's table when some
scope declares the name; otherwise leave the reference unresolved. -/
def Resolver.resolveLocal (rs : Resolver) (expr : LoxExpr) (name : LoxToken) :
    Resolver :=
  match innermostScopeWith rs.scopes name.keyStr with
  | Option.none => rs
  | Option.some idx =>
      { rs with locals :=
          rs.locals ++ [((name.id, expr.keyStr), rs.scopes.length - 1 - idx)] }

/-- The parameter loop of `resolve_function` (also used, without a fresh
scope, by `lambda_expression`). -/
def declareParams (rs : Resolver) : List LoxToken → Except LoxError Resolver
  | [] => .ok rs
  | p :: rest =>
      match rs.declare p with
      | .error e => .error e
      | .ok rs1 => declareParams (rs1.define p) rest

/-- The self-inheritance check of `class_statement`: a class whose
superclass expression is a variable with the same display string as its own
name is a static error. -/
def selfInheritError (name : LoxToken) : LoxOptExpr → Option LoxError
  | .someE (.variable superName) =>
      if name.keyStr = superName.keyStr then
        Option.some (.parseError (Option.some superName.line)
          "A class cant inherit from itself.")
      else Option.none
  | _ => Option.none

mutual
/-- `Resolver::resolve_statement` dispatch (one arm per statement kind).
Like the evaluator, the resolver is fueled so that every definition reduces
inside the kernel; `fuel` bounds only the AST depth, and every theorem picks
it large enough. -/
def resolveStatement : Nat → Resolver → LoxStmt → Except LoxError Resolver
  | 0, _, _ => .error .outOfFuel
  | Nat.succ f, rs, stmt =>
      match stmt with
      | .print e => resolveExpression f rs e
      | .stmtExpression e => resolveExpression f rs e
      | .varDecl name init =>
          match rs.declare name with
          | .error e => .error e
          | .ok rs1 =>
              match init with
              | .noneE => .ok (rs1.define name)
              | .someE e =>
                  match resolveExpression f rs1 e with
                  | .error err => .error err
                  | .ok rs2 => .ok (rs2.define name)
      | .awaitVarDecl name init =>
          match rs.declare name with
          | .error e => .error e
          | .ok rs1 =>
              match resolveExpression f rs1 init with
              | .error err => .error err
              | .ok rs2 => .ok (rs2.define name)
      | .block body =>
          match resolveStatements f rs.beginScope body with
          | .error e => .error e
          | .ok rs1 => .ok rs1.endScope
      | .ifS cond thenB elseB =>
          match resolveExpression f rs cond with
          | .error e => .error e
          | .ok rs1 =>
              match resolveStatement f rs1 thenB with
              | .error e => .error e
              | .ok rs2 =>
                  match elseB with
                  | .noneS => .ok rs2
                  | .someS s => resolveStatement f rs2 s
      | .whileS cond body =>
          match resolveExpression f rs cond with
          | .error e => .error e
          | .ok rs1 => resolveStatement f rs1 body
      | .ret e =>
          match e with
          | .someE expr =>
              match rs.currentFunction with
              | .none =>
                  .error (.parseError Option.none "Cant return from top-level code.")
              | .initializer =>
                  .error (.parseError Option.none "Cant return inside from initializer")
              | _ => resolveExpression f rs expr
          | .noneE => .ok rs
      | .funDecl name params body =>
          match rs.declare name with
          | .error e => .error e
          | .ok rs1 => resolveFunction f (rs1.define name) params body .function
      | .classDecl name superclass methods =>
          let enclosingClass := rs.currentClass
          let rs0 := { rs with currentClass := .cls }
          match rs0.declare name with
          | .error e => .error e
          | .ok rs1 =>
              let rs2 := rs1.define name
              match selfInheritError name superclass with
              | Option.some err => .error err
              | Option.none => resolveClassTail f rs2 superclass methods enclosingClass

/-- Tail of `Resolver::class_statement` after the self-inheritance check:
resolve the superclass expression (inserting the `Super` key into the
*current* scope), push the `This` scope, resolve the methods, pop, restore
the class context. -/
def resolveClassTail : Nat → Resolver → LoxOptExpr → LoxStmtList →
    ClassType → Except LoxError Resolver
  | 0, _, _, _, _ => .error .outOfFuel
  | Nat.succ f, rs, superclass, methods, enclosingClass =>
      let afterSuper : Except LoxError Resolver :=
        match superclass with
        | .noneE => .ok rs
        | .someE se =>
            match resolveExpression f rs se with
            | .error e => .error e
            | .ok rs1 => .ok (rs1.modifyLast (fun s => alistInsert s "Super" true))
      match afterSuper with
      | .error e => .error e
      | .ok rs2 =>
          let rs3 := rs2.beginScope.modifyLast (fun s => alistInsert s "This" true)
          match resolveMethods f rs3 methods with
          | .error e => .error e
          | .ok rs4 => .ok { rs4.endScope with currentClass := enclosingClass }

/-- The method loop of `class_statement`: each method must be a function
statement (otherwise the Rust hits `unreachable!`), resolved as
`Initializer` when named `init`, else as `Method`. -/
def resolveMethods : Nat → Resolver → LoxStmtList → Except LoxError Resolver
  | 0, _, _ => .error .outOfFuel
  | Nat.succ f, rs, ms =>
      match ms with
      | .nil => .ok rs
      | .cons m rest =>
          match m with
          | .funDecl mname params body =>
              let ftype : FunctionType :=
                match mname.kind with
                | .identifier n => if n = "init" then .initializer else .method
                | _ => .method
              match resolveFunction f rs params body ftype with
              | .error e => .error e
              | .ok rs1 => resolveMethods f rs1 rest
          | _ => .error .panicked

/-- `Resolver::resolve_function`: push the parameter scope, declare/define
each parameter, resolve the body, pop, restore the function context. -/
def resolveFunction : Nat → Resolver → List LoxToken → LoxStmt →
    FunctionType → Except LoxError Resolver
  | 0, _, _, _, _ => .error .outOfFuel
  | Nat.succ f, rs, params, body, ftype =>
      let enclosingFunction := rs.currentFunction
      let rs1 := { rs.beginScope with currentFunction := ftype }
      match declareParams rs1 params with
      | .error e => .error e
      | .ok rs2 =>
          match resolveStatement f rs2 body with
          | .error e => .error e
          | .ok rs3 =>
              .ok { rs3.endScope with currentFunction := enclosingFunction }

/-- Statement-list resolution (`Resolver::resolve` body loop). -/
def resolveStatements : Nat → Resolver → LoxStmtList → Except LoxError Resolver
  | 0, _, _ => .error .outOfFuel
  | Nat.succ f, rs, ss =>
      match ss with
      | .nil => .ok rs
      | .cons s rest =>
          match resolveStatement f rs s with
          | .error e => .error e
          | .ok rs1 => resolveStatements f rs1 rest

/-- `Resolver::resolve_expression` dispatch. -/
def resolveExpression : Nat → Resolver → LoxExpr → Except LoxError Resolver
  | 0, _, _ => .error .outOfFuel
  | Nat.succ f, rs, expr =>
      match expr with
      | .binary l _ r =>
          match resolveExpression f rs l with
          | .error e => .error e
          | .ok rs1 => resolveExpression f rs1 r
      | .unary _ r => resolveExpression f rs r
      | .grouping i => resolveExpression f rs i
      | .logical l _ r =>
          match resolveExpression f rs l with
          | .error e => .error e
          | .ok rs1 => resolveExpression f rs1 r
      | .literal _ => .ok rs
      | .variable name =>
          match rs.scopes.getLast? with
          | Option.some scope =>
              if alistGet scope name.keyStr = Option.some false then
                .error (.parseError (Option.some name.line)
                  "Cant read local variable its own initializer")
              else
                .ok (rs.resolveLocal (.variable name) name)
          | Option.none => .ok (rs.resolveLocal (.variable name) name)
      | .assign name value =>
          match resolveExpression f rs value with
          | .error e => .error e
          | .ok rs1 => .ok (rs1.resolveLocal (.assign name value) name)
      | .call callee _ args =>
          match resolveExpression f rs callee with
          | .error e => .error e
          | .ok rs1 => resolveExprList f rs1 args
      | .lambda params body =>
          match declareParams rs params with
          | .error e => .error e
          | .ok rs1 => resolveStatement f rs1 body
      | .get obj _ => resolveExpression f rs obj
      | .set obj _ value =>
          match resolveExpression f rs value with
          | .error e => .error e
          | .ok rs1 => resolveExpression f rs1 obj
      | .thisE keyword =>
          match rs.currentClass with
          | .none =>
              .error (.parseError Option.none "Cant use this outside of a class.")
          | .cls => .ok (rs.resolveLocal (.thisE keyword) keyword)
      | .superE keyword method =>
          .ok (rs.resolveLocal (.superE keyword method) keyword)

/-- Argument-list resolution (`call_expression` loop). -/
def resolveExprList : Nat → Resolver → LoxExprList → Except LoxError Resolver
  | 0, _, _ => .error .outOfFuel
  | Nat.succ f, rs, es =>
      match es with
      | .nil => .ok rs
      | .cons e rest =>
          match resolveExpression f rs e with
          | .error err => .error err
          | .ok rs1 => resolveExprList f rs1 rest
end

/-- Overwriting insert into a method table (`AHashMap::insert`). -/
def methodsInsert : LoxMethodList → String → LoxCallable → LoxMethodList
  | .nil, k, m => .cons k m .nil
  | .cons k' m' rest, k, m =>
      if k' = k then .cons k m rest else .cons k' m' (methodsInsert rest k m)

/-- `LoxCallable::new`: fresh random id, fresh memoization cache, no bound
`this`, not an initializer.  The revision of `executor.rs` under verification
calls `new` without a closure argument while `callable.rs` declares one; the
current environment is passed, and `call` never reads the field, so the
choice is unobservable. -/
def mkNewFunction (params : List LoxToken) (body : LoxStmt) (closure : Nat)
    (st : LoxState) : LoxCallable × LoxState :=
  let idp := st.freshId
  let chp := idp.snd.allocCache
  (.function idp.fst params body (Option.some chp.fst) .none false closure,
    chp.snd)

/-- `LoxCallable::new_method`: fresh id, *no* cache, `is_initializer` flag. -/
def mkNewMethod (params : List LoxToken) (body : LoxStmt)
    (isInitializer : Bool) (closure : Nat) (st : LoxState) :
    LoxCallable × LoxState :=
  let idp := st.freshId
  (.function idp.fst params body Option.none .none isInitializer closure,
    idp.snd)

/-- `LoxCallable::bind`: clone the function with a fresh id, no cache and the
given bound instance.  Binding a non-function is `unreachable!` in the code
and never happens; the callable is returned unchanged there. -/
def bindCallable (m : LoxCallable) (iid : Nat) (cls : LoxClass) (fh : Nat)
    (st : LoxState) : LoxCallable × LoxState :=
  match m with
  | .function _ params body _ _ isInit closure =>
      let idp := st.freshId
      (.function idp.fst params body Option.none (.some iid cls fh) isInit
        closure, idp.snd)
  | other => (other, st)

/-- The method-table loop of the `Class` statement arm of
`Executor::eval_statement`, with the accumulated table: every method must be
a function statement with an identifier name (`unreachable!` otherwise),
built by `new_method` with `is_initializer = (name == "init")` and inserted
in iteration order, a later duplicate name overwriting an earlier one as
`AHashMap::insert` does. -/
def buildMethodsAux (closure : Nat) (acc : LoxMethodList) : LoxStmtList →
    LoxState → Except LoxError (LoxMethodList × LoxState)
  | .nil, st => .ok (acc, st)
  | .cons m rest, st =>
      match m with
      | .funDecl ⟨_, .identifier mname, _⟩ params body =>
          let mp := mkNewMethod params body (mname = "init") closure st
          buildMethodsAux closure (methodsInsert acc mname mp.fst) rest mp.snd
      | _ => .error .panicked

/-- The method-table construction, starting from the empty table. -/
def buildMethods (closure : Nat) (ms : LoxStmtList) (st : LoxState) :
    Except LoxError (LoxMethodList × LoxState) :=
  buildMethodsAux closure .nil ms st

/-- The `while let Some(superclass) = &class.superclass` walk of the `Super`
arm of `eval_expression`: search each successive superclass with
`find_method`, erroring out only after the chain is exhausted. -/
def superFindMethod : LoxClass → String → Option LoxCallable
  | .mk _ .none _, _ => Option.none
  | .mk _ (.some sc) _, k =>
      match sc.findMethod k with
      | Option.some m => Option.some m
      | Option.none => superFindMethod sc k

/-- `LoxObject::get` (property access on an instance): own field table
first, then a class method bound to the instance, else
`Undefined property`; non-instances have no properties. -/
def objectGet (obj : LoxObject) (name : LoxToken) (st : LoxState) :
    LoxOut LoxObject :=
  match obj, name.kind with
  | .instance iid cls fh, .identifier n =>
      match st.fieldsGet fh n with
      | Option.some v => (.ok v, st)
      | Option.none =>
          match cls.findMethod n with
          | Option.some m =>
              let bp := bindCallable m iid cls fh st
              (.ok (.callable bp.fst), bp.snd)
          | Option.none =>
              (.error (.runtimeError (Option.some name.line)
                ("Undefined property " ++ n ++ ".")), st)
  | _, _ =>
      (.error (.runtimeError (Option.some name.line)
        "Only instances have properties"), st)

/-- `LoxObject::set` (field write; the executor has already checked the
receiver is an instance, so the other arms are `unreachable!`). -/
def objectSet (obj : LoxObject) (name : LoxToken) (v : LoxObject)
    (st : LoxState) : LoxOut LoxObject :=
  match obj, name.kind with
  | .instance _ _ fh, .identifier n => (.ok v, st.fieldsInsert fh n v)
  | _, _ => (.error .panicked, st)

/-- Common prelude of `environment::put` / `put_immediately`: detach any old
same-named binding and build the overlay sub-environment
(`create_sub_environment!`) the evaluation will read. -/
def putPrelude (st : LoxState) (envH : Nat) (name : String) :
    Nat × LoxState :=
  let rp := st.envRemoveLocal envH name
  match rp.fst with
  | Option.some (k, v) =>
      rp.snd.allocEnv ⟨[(k, v)], Option.some envH⟩
  | Option.none => (envH, rp.snd)

/-- `environment::put_immediately` specialised to an already-computed value
(the `Either::Right` arm, which performs no evaluation). -/
def putImmediatelyObj (st : LoxState) (envH : Nat) (name : String)
    (obj : LoxObject) : LoxState :=
  let pp := putPrelude st envH name
  pp.snd.envInsert envH name (.ready (.ok obj))

/-- The parameter-binding loop of `LoxCallable::call`: each identifier
parameter is bound `Ready` positionally via `put_immediately`;
out-of-range `arguments.get(index).unwrap()` is a panic, but the arity was
checked before.  A non-identifier parameter is silently skipped
(`if let Identifier(name) = &param.kind`). -/
def bindParams (envH : Nat) : List LoxToken → List LoxObject → LoxState →
    LoxState
  | [], _, st => st
  | p :: rest, args, st =>
      match p.kind with
      | .identifier n =>
          match args with
          | [] => st
          | a :: moreArgs =>
              bindParams envH rest moreArgs (putImmediatelyObj st envH n a)
      | _ =>
          match args with
          | [] => st
          | _ :: moreArgs => bindParams envH rest moreArgs st

/-- `environment::put` (the deferred path used by `var` declarations with an
initializer): detach the old binding, install a `Pending` cell, build the
overlay, and schedule the initializer on the worker pool.  The statement
returns without evaluating anything. -/
def putDeferred (st : LoxState) (envH : Nat) (name : String)
    (expr : LoxExpr) : LoxState :=
  let rp := st.envRemoveLocal envH name
  let st1 := rp.snd.envInsert envH name .pending
  let sp :=
    match rp.fst with
    | Option.some (k, v) => st1.allocEnv ⟨[(k, v)], Option.some envH⟩
    | Option.none => (envH, st1)
  { sp.snd with tasks := sp.snd.tasks ++ [⟨sp.fst, envH, name, expr⟩] }

/-- Cache bookkeeping after a non-tail return value has been computed
(`cache.as_ref().and_then(|cache| cache.insert(...))`, guarded by
`self.arity() != 0`). -/
def cacheFinish (cache : Option Nat) (arityNonzero : Bool)
    (args : List LoxObject) (r : Except LoxError LoxObject) (st : LoxState) :
    LoxOut LoxObject :=
  match r with
  | .error e => (.error e, st)
  | .ok v =>
      if arityNonzero then
        match cache with
        | Option.some ch =>
            (.ok v, st.cacheInsert ch (args.map LoxObject.toDisplay) v)
        | Option.none => (.ok v, st)
      else (.ok v, st)

/-- The memo-cache probe at the top of the `loop` of `LoxCallable::call`:
on a `Some` cache and non-zero arity, look up the stringified-argument key;
otherwise no early hit. -/
def cacheProbe (cache : Option Nat) (selfC : LoxCallable)
    (args : List LoxObject) (st : LoxState) : Option LoxObject :=
  match cache with
  | Option.some ch =>
      if selfC.arity ≠ 0 then st.cacheGet ch (args.map LoxObject.toDisplay)
      else Option.none
  | Option.none => Option.none

/-- Tail of the `Class` statement arm after the superclass expression has
been resolved: build the method table and bind the class value immediately. -/
def classFinish (name : String) (envH : Nat) (sup : LoxOptClass)
    (methods : LoxStmtList) (st : LoxState) : LoxOut Unit :=
  match buildMethods envH methods st with
  | .error e => (.error e, st)
  | .ok (tbl, st2) =>
      (.ok (), putImmediatelyObj st2 envH name
        (.callable (.classC (.mk name sup tbl))))

mutual
/-- `Executor::eval_statement`.  The Boolean `tc` selects between the source
semantics (`true`: `LoxCallable::call` performs its tail-call iteration) and
the reference semantics modelled from the spec (`false`: a return-position
call is evaluated by plain recursion); the flag is read in exactly one place,
inside `callLoop`. -/
def evalStatement (tc : Bool) : Nat → LoxLocals → LoxExec → LoxStmt →
    LoxState → LoxOut Unit
  | 0, _, _, _, st => (.error .outOfFuel, st)
  | Nat.succ f, L, ex, stmt, st =>
      match stmt with
      | .stmtExpression e =>
          match evalExpression tc f L ex e st with
          | (.error err, st1) => (.error err, st1)
          | (.ok _, st1) => (.ok (), st1)
      | .print e =>
          match evalExpression tc f L ex e st with
          | (.error err, st1) => (.error err, st1)
          | (.ok v, st1) =>
              (.ok (), { st1 with output := st1.output ++ [v.toDisplay] })
      | .varDecl tok init =>
          match tok.kind with
          | .identifier name =>
              match init with
              | .someE e => (.ok (), putDeferred st ex.environment name e)
              | .noneE =>
                  (.ok (), putImmediatelyObj st ex.environment name .nil)
          | _ => (.error .panicked, st)
      | .awaitVarDecl tok init =>
          match tok.kind with
          | .identifier name =>
              (.ok (), putImmediately tc f L ex.environment name
                (Sum.inl init) st)
          | _ => (.error .panicked, st)
      | .block body =>
          let ap := st.allocEnv ⟨[], Option.some ex.environment⟩
          execList tc f L ⟨ap.fst⟩ body ap.snd
      | .ifS cond thenB elseB =>
          match evalExpression tc f L ex cond st with
          | (.error err, st1) => (.error err, st1)
          | (.ok v, st1) =>
              if v.truthy then
                match evalStatement tc f L ex thenB st1 with
                | (.error err, st2) => (.error err, st2)
                | (.ok _, st2) => (.ok (), st2)
              else
                match elseB with
                | .someS s =>
                    match evalStatement tc f L ex s st1 with
                    | (.error err, st2) => (.error err, st2)
                    | (.ok _, st2) => (.ok (), st2)
                | .noneS => (.ok (), st1)
      | .whileS cond body =>
          match evalExpression tc f L ex cond st with
          | (.error err, st1) => (.error err, st1)
          | (.ok v, st1) =>
              if v.truthy then
                match evalStatement tc f L ex body st1 with
                | (.error err, st2) => (.error err, st2)
                | (.ok _, st2) =>
                    evalStatement tc f L ex (.whileS cond body) st2
              else (.ok (), st1)
      | .funDecl name params body =>
          match name.kind with
          | .identifier n =>
              let fp := mkNewFunction params body ex.environment st
              (.ok (), putImmediatelyObj fp.snd ex.environment n
                (.callable fp.fst))
          | _ =>
              (.error (.parseError (Option.some name.line)
                "Invalid name specified in function statement!"), st)
      | .ret e => (.error (.returnSignal ex.environment e), st)
      | .classDecl cname superE methods =>
          match cname.kind with
          | .identifier n =>
              match superE with
              | .noneE => classFinish n ex.environment .none methods st
              | .someE se =>
                  match evalExpression tc f L ex se st with
                  | (.ok (.callable (.classC cls)), st1) =>
                      classFinish n ex.environment (.some cls) methods st1
                  | (.ok (.callable _), st1) =>
                      (.error (.runtimeError (Option.some cname.line)
                        "None is not a class but a callable, can not be inherited"),
                        st1)
                  | (.ok _, st1) => (.ok (), st1)
                  | (.error err, st1) => (.error err, st1)
          | _ =>
              (.error (.parseError (Option.some cname.line)
                "Invalid name specified in function statement!"), st)

/-- `Executor::execute` (statement list with early error propagation). -/
def execList (tc : Bool) : Nat → LoxLocals → LoxExec → LoxStmtList →
    LoxState → LoxOut Unit
  | 0, _, _, _, st => (.error .outOfFuel, st)
  | Nat.succ f, L, ex, stmts, st =>
      match stmts with
      | .nil => (.ok (), st)
      | .cons s rest =>
          match evalStatement tc f L ex s st with
          | (.error err, st1) => (.error err, st1)
          | (.ok _, st1) => execList tc f L ex rest st1

/-- `Executor::eval_expression`. -/
def evalExpression (tc : Bool) : Nat → LoxLocals → LoxExec → LoxExpr →
    LoxState → LoxOut LoxObject
  | 0, _, _, _, st => (.error .outOfFuel, st)
  | Nat.succ f, L, ex, expr, st =>
      match expr with
      | .grouping inner => evalExpression tc f L ex inner st
      | .literal (.num n) => (.ok (.number n), st)
      | .literal (.str s) => (.ok (.loxString s), st)
      | .literal (.bool b) => (.ok (.boolean b), st)
      | .literal .nil => (.ok .nil, st)
      | .unary .isReady rightE =>
          match rightE with
          | .variable tkn =>
              match tkn.kind with
              | .identifier name =>
                  match st.envGetDyn ex.environment name with
                  | Option.some (.ready _) => (.ok (.boolean true), st)
                  | Option.some .pending => (.ok (.boolean false), st)
                  | Option.none =>
                      (.error (.runtimeError (Option.some tkn.line)
                        "Undefined variable while is_ready call"), st)
              | _ => (.error .panicked, st)
          | _ => (.ok (.boolean true), st)
      | .unary op rightE =>
          match evalExpression tc f L ex rightE st with
          | (.error err, st1) => (.error err, st1)
          | (.ok v, st1) =>
              match op with
              | .minus => (v.applyNegative, st1)
              | .notOp => (.ok (.boolean (!v.truthy)), st1)
              | _ => (.error .panicked, st1)
      | .binary l op r =>
          match evalExpression tc f L ex l st with
          | (.error err, st1) => (.error err, st1)
          | (.ok lv, st1) =>
              match evalExpression tc f L ex r st1 with
              | (.error err, st2) => (.error err, st2)
              | (.ok rv, st2) =>
                  match op with
                  | .star => (lv.mul rv, st2)
                  | .slash => (lv.div rv, st2)
                  | .minus => (lv.sub rv, st2)
                  | .plus => (lv.add rv, st2)
                  | .equality => (.ok (lv.isEqual rv), st2)
                  | .notEqual => (.ok (lv.isNotEqual rv), st2)
                  | .greater => (lv.isGreater rv, st2)
                  | .greaterOrEqual => (lv.isGreaterEqual rv, st2)
                  | .smaller => (lv.isLess rv, st2)
                  | .smallerOrEqual => (lv.isLessEqual rv, st2)
                  | _ => (.error .panicked, st2)
      | .variable tok =>
          match tok.kind with
          | .identifier name =>
              match lookupVariable L st ex tok.id name (.variable tok) with
              | .error err => (.error err, st)
              | .ok Option.none =>
                  (.error (.runtimeError (Option.some tok.line)
                    ("Undefined variable " ++ name)), st)
              | .ok (Option.some .pending) => (.error .blockedPending, st)
              | .ok (Option.some (.ready (.ok v))) => (.ok v, st)
              | .ok (Option.some (.ready (.error err))) => (.error err, st)
          | _ =>
              (.error (.internalError
                ("Unexcepted Token! Excepted Identifier found " ++ tok.keyStr)),
                st)
      | .assign tok value =>
          match tok.kind with
          | .identifier name =>
              match localsGet L (tok.id, (LoxExpr.assign tok value).keyStr) with
              | Option.some d =>
                  match evalExpression tc f L ex value st with
                  | (.error err, st1) => (.error err, st1)
                  | (.ok v, st1) =>
                      let st2 :=
                        match st1.assignAt ex.environment d name v with
                        | Option.some s2 => s2
                        | Option.none => st1
                      (.ok v, st2)
              | Option.none =>
                  (.error (.runtimeError (Option.some tok.line)
                    "Undefined variable while assign"), st)
          | _ =>
              (.error (.internalError
                ("Unexcepted Token! Excepted Identifier found " ++ tok.keyStr)),
                st)
      | .logical lhs op rhs =>
          match evalExpression tc f L ex rhs st with
          | (.error err, st1) => (.error err, st1)
          | (.ok v, st1) =>
              match op with
              | .orOp =>
                  if v.truthy then (.ok v, st1)
                  else evalExpression tc f L ex lhs st1
              | _ =>
                  if !v.truthy then (.ok v, st1)
                  else evalExpression tc f L ex lhs st1
      | .call callee paren args =>
          match evalExpression tc f L ex callee st with
          | (.error err, st1) => (.error err, st1)
          | (.ok (.callable c), st1) =>
              match evalArgs tc f L ex args st1 with
              | (.error err, st2) => (.error err, st2)
              | (.ok argv, st2) =>
                  let ap := st2.allocEnv ⟨[], Option.some ex.environment⟩
                  callCallable tc f L c ⟨ap.fst⟩ argv ap.snd
          | (.ok _, st1) =>
              (.error (.runtimeError (Option.some paren.line)
                "Callee does not match with a function!"), st1)
      | .lambda params body =>
          let fp := mkNewFunction params body ex.environment st
          (.ok (.callable fp.fst), fp.snd)
      | .get objE name =>
          match evalExpression tc f L ex objE st with
          | (.error err, st1) => (.error err, st1)
          | (.ok obj, st1) => objectGet obj name st1
      | .set objE name value =>
          match evalExpression tc f L ex objE st with
          | (.error err, st1) => (.error err, st1)
          | (.ok obj, st1) =>
              match obj with
              | .instance iid cls fh =>
                  match evalExpression tc f L ex value st1 with
                  | (.error err, st2) => (.error err, st2)
                  | (.ok v, st2) => objectSet (.instance iid cls fh) name v st2
              | _ =>
                  (.error (.runtimeError (Option.some name.line)
                    "Only instances have fields"), st1)
      | .thisE tok =>
          match lookupVariable L st ex tok.id thisKey (.thisE tok) with
          | .error err => (.error err, st)
          | .ok (Option.some .pending) => (.error .blockedPending, st)
          | .ok (Option.some (.ready (.ok v))) => (.ok v, st)
          | .ok (Option.some (.ready (.error err))) => (.error err, st)
          | .ok Option.none =>
              (.error (.internalError
                ("Unexcepted this at line " ++ toString tok.line)), st)
      | .superE _kw method =>
          match st.envGetDyn ex.environment thisKey with
          | Option.none => (.error .panicked, st)
          | Option.some .pending => (.error .blockedPending, st)
          | Option.some (.ready (.error _)) => (.error .panicked, st)
          | Option.some (.ready (.ok t)) =>
              match t, method.kind with
              | .instance iid cls fh, .identifier mname =>
                  match superFindMethod cls mname with
                  | Option.some m =>
                      let bp := bindCallable m iid cls fh st
                      (.ok (.callable bp.fst), bp.snd)
                  | Option.none =>
                      (.error (.runtimeError (Option.some method.line)
                        ("Undefined property " ++ mname ++ ".")), st)
              | _, _ => (.error .panicked, st)

/-- The left-to-right argument loop of the `Call` arm. -/
def evalArgs (tc : Bool) : Nat → LoxLocals → LoxExec → LoxExprList →
    LoxState → LoxOut (List LoxObject)
  | 0, _, _, _, st => (.error .outOfFuel, st)
  | Nat.succ f, L, ex, args, st =>
      match args with
      | .nil => (.ok [], st)
      | .cons e rest =>
          match evalExpression tc f L ex e st with
          | (.error err, st1) => (.error err, st1)
          | (.ok v, st1) =>
              match evalArgs tc f L ex rest st1 with
              | (.error err, st2) => (.error err, st2)
              | (.ok vs, st2) => (.ok (v :: vs), st2)

/-- `LoxCallable::call`: arity check, then dispatch.  A bound method call
inserts `this` into the *enclosing* environment of the call frame (the
caller's environment); a class call constructs the instance and invokes a
bound `init` while discarding its entire result. -/
def callCallable (tc : Bool) : Nat → LoxLocals → LoxCallable → LoxExec →
    List LoxObject → LoxState → LoxOut LoxObject
  | 0, _, _, _, _, st => (.error .outOfFuel, st)
  | Nat.succ f, L, c, ex, args, st =>
      if args.length ≠ c.arity then
        (.error (.runtimeError Option.none "Wrong number of arguments"), st)
      else
        match c with
        | .function _ _ _ _ thisO _ _ =>
            match thisO with
            | .some iid cls fh =>
                match st.envNode ex.environment with
                | Option.none => (.error .panicked, st)
                | Option.some nd =>
                    match nd.enclosing with
                    | Option.none => (.error .panicked, st)
                    | Option.some p =>
                        callLoop tc f L c ex args
                          (st.envInsert p thisKey
                            (.ready (.ok (.instance iid cls fh))))
            | .none => callLoop tc f L c ex args st
        | .nativeFunction _ _ =>
            (.error (.internalError "native function outside model"), st)
        | .classC cls =>
            let ip := st.freshId
            let fp := ip.snd.allocFields
            let inst : LoxObject := .instance ip.fst cls fp.fst
            match cls.findMethod "init" with
            | Option.some initM =>
                let bp := bindCallable initM ip.fst cls fp.fst fp.snd
                let rp := callCallable tc f L bp.fst ex args bp.snd
                (.ok inst, rp.snd)
            | Option.none => (.ok inst, fp.snd)

/-- The `loop` of the `Function` arm of `LoxCallable::call`: memo-cache
probe, parameter rebinding, body execution, and handling of the `Return`
signal, with the tail-call `continue` when the return expression is a direct
call to the identity-equal same callable (under `tc = true`). -/
def callLoop (tc : Bool) : Nat → LoxLocals → LoxCallable → LoxExec →
    List LoxObject → LoxState → LoxOut LoxObject
  | 0, _, _, _, _, st => (.error .outOfFuel, st)
  | Nat.succ f, L, selfC, ex, args, st =>
      match selfC with
      | .function _ params body cache thisO isInit _ =>
          match cacheProbe cache selfC args st with
          | Option.some early => (.ok early, st)
          | Option.none =>
              let st1 := bindParams ex.environment params args st
              match evalStatement tc f L ex body st1 with
              | (.ok _, st2) => (.ok .nil, st2)
              | (.error (.returnSignal _ .noneE), st2) => (.ok .nil, st2)
              | (.error (.returnSignal innerEnv (.someE expr)), st2) =>
                  let subEx : LoxExec := ⟨innerEnv⟩
                  if tc then
                    match expr with
                    | .call callee2 _ args2 =>
                        match evalExpression tc f L subEx callee2 st2 with
                        | (.error err, st3) => (.error err, st3)
                        | (.ok (.callable c2), st3) =>
                            if c2.beq selfC then
                              match evalArgs tc f L subEx args2 st3 with
                              | (.error err, st4) => (.error err, st4)
                              | (.ok newArgs, st4) =>
                                  callLoop tc f L selfC ex newArgs st4
                            else
                              let vp := evalExpression tc f L subEx expr st3
                              cacheFinish cache (selfC.arity != 0) args
                                vp.fst vp.snd
                        | (.ok _, st3) =>
                            let vp := evalExpression tc f L subEx expr st3
                            cacheFinish cache (selfC.arity != 0) args
                              vp.fst vp.snd
                    | _ =>
                        let vp := evalExpression tc f L subEx expr st2
                        cacheFinish cache (selfC.arity != 0) args vp.fst vp.snd
                  else
                    let vp := evalExpression tc f L subEx expr st2
                    cacheFinish cache (selfC.arity != 0) args vp.fst vp.snd
              | (.error err, st2) =>
                  if isInit then
                    match thisO with
                    | .some iid cls fh => (.ok (.instance iid cls fh), st2)
                    | .none => (.error .panicked, st2)
                  else (.error err, st2)
      | _ => (.error .panicked, st)

/-- `environment::put_immediately`: detach the old binding, evaluate the
`Either::Left` expression synchronously in the overlay (or take the
`Either::Right` value as-is), and insert the `Ready` cell; evaluation errors
are stored in the cell, never propagated. -/
def putImmediately (tc : Bool) : Nat → LoxLocals → Nat → String →
    Sum LoxExpr LoxObject → LoxState → LoxState
  | fuel, L, envH, name, eo, st =>
      match eo with
      | Sum.inr obj => putImmediatelyObj st envH name obj
      | Sum.inl e =>
          let pp := putPrelude st envH name
          match fuel with
          | 0 => pp.snd.envInsert envH name (.ready (.error .outOfFuel))
          | Nat.succ g =>
              let vp := evalExpression tc g L ⟨pp.fst⟩ e pp.snd
              vp.snd.envInsert envH name (.ready vp.fst)
end

/-- A worker executing one scheduled deferred initializer (the closure passed
to `WORKERS.execute` in `environment::put`): evaluate in the overlay
executor, then replace the `Pending` cell with `Ready` (the condition
variable broadcast is synchronization machinery). -/
def runTask (tc : Bool) (fuel : Nat) (L : LoxLocals) (t : LoxTask)
    (st : LoxState) : LoxState :=
  let vp := evalExpression tc fuel L ⟨t.subEnv⟩ t.expr st
  vp.snd.envInsert t.targetEnv t.key (.ready vp.fst)

/-- Resolve a whole program from a fresh resolver (`Resolver::new` +
`Resolver::resolve`). -/
def resolveProgram (fuel : Nat) (p : LoxStmtList) : Except LoxError Resolver :=
  resolveStatements fuel Resolver.new p

/-- `run` (from `main.rs`): resolve, then execute against the root
environment with the resolver's distance table; a resolve error aborts
before any evaluation. -/
def runProgram (tc : Bool) (fuel : Nat) (p : LoxStmtList) : LoxOut Unit :=
  match resolveProgram fuel p with
  | .error e => (.error e, initState)
  | .ok rs => execList tc fuel rs.locals ⟨rootHandle⟩ p initState

/-- The exit-status decision of `main` (`main.rs`) for the script path:
`64` for a usage error (too many arguments); with a script argument, `65`
when the file cannot be read, `65` when `run` (scan, parse, resolve or
execute) fails, `0` on success. -/
def mainExitFor (readable : Bool) (runRes : Except LoxError Unit) : Nat :=
  if readable then
    match runRes with
    | .ok _ => 0
    | .error _ => 65
  else 65

/-- `main`'s usage-error exit status (`process::exit(64)`). -/
def usageExitCode : Nat := 64

/-! Projections used by the concrete-program theorems. -/

/-- The closure handle stored in the function bound under `k` at the root. -/
def closureOfBinding (st : LoxState) (k : String) : Option Nat :=
  match st.envGetLocal rootHandle k with
  | Option.some (.ready (.ok (.callable (.function _ _ _ _ _ _ cl)))) =>
      Option.some cl
  | _ => Option.none

/-- The enclosing-environment link of the environment node at a handle. -/
def envParent (st : LoxState) (h : Nat) : Option (Option Nat) :=
  (st.envNode h).map (fun nd => nd.enclosing)


/-! Concrete programs and helper definitions for the per-claim theorems.
Token ids are process-unique, as the scanner guarantees for real runs. -/

/-- An identifier token. -/
def mkTok (i : Nat) (n : String) : LoxToken := ⟨i, .identifier n, 1⟩

/-- Boolean success of a `Result`. -/
def exceptOk {α : Type} : Except LoxError α → Bool
  | .ok _ => true
  | .error _ => false

/-- `var x = 5;` (an initializer present). -/
def c1VarStmt : LoxStmt := .varDecl (mkTok 1 "x") (.someE (.literal (.num 5)))

/-- `await x = 5;`. -/
def c1AwaitStmt : LoxStmt := .awaitVarDecl (mkTok 1 "x") (.literal (.num 5))

/-- `await x = 1; await y = nil; fun f(a) { return a + x; }
{ await x = 2; y = f(10); }` — the call site sits in a block whose own `x`
shadows the `x` visible where `f` was defined. -/
def c2prog : LoxStmtList :=
  .cons (.awaitVarDecl (mkTok 1 "x") (.literal (.num 1)))
  (.cons (.awaitVarDecl (mkTok 2 "y") (.literal .nil))
  (.cons (.funDecl (mkTok 3 "f") [mkTok 4 "a"]
    (.block (.cons (.ret (.someE (.binary (.variable (mkTok 5 "a")) .plus
      (.variable (mkTok 6 "x"))))) .nil)))
  (.cons (.block
    (.cons (.awaitVarDecl (mkTok 7 "x") (.literal (.num 2)))
    (.cons (.stmtExpression (.assign (mkTok 8 "y")
      (.call (.variable (mkTok 9 "f")) (mkTok 10 "rp")
        (.cons (.literal (.num 10)) .nil)))) .nil)))
  .nil)))

/-- `1 or 2`. -/
def c3OrExpr : LoxExpr := .logical (.literal (.num 1)) .orOp (.literal (.num 2))

/-- `false and nil`. -/
def c3AndExpr : LoxExpr :=
  .logical (.literal (.bool false)) .andOp (.literal .nil)

/-- `class A { m() { return "A"; } }`. -/
def c4ClassA : LoxStmt := .classDecl (mkTok 20 "A") .noneE
  (.cons (.funDecl (mkTok 21 "m") []
    (.block (.cons (.ret (.someE (.literal (.str "A")))) .nil))) .nil)

/-- `class B < A { m() { return "B"; } test() { return super.m(); } }` —
`test` is *defined in* `B`, whose immediate superclass is `A`. -/
def c4ClassB : LoxStmt := .classDecl (mkTok 22 "B")
  (.someE (.variable (mkTok 23 "A")))
  (.cons (.funDecl (mkTok 24 "m") []
    (.block (.cons (.ret (.someE (.literal (.str "B")))) .nil)))
  (.cons (.funDecl (mkTok 25 "test") []
    (.block (.cons (.ret (.someE (.call (.superE ⟨26, .superKw, 1⟩ (mkTok 27 "m"))
      (mkTok 28 "rp") .nil))) .nil)))
  .nil))

/-- The whole multi-level-inheritance program: the receiver is a `C < B < A`
instance, and `super.m()` runs inside `test`, which `B` defines. -/
def c4prog : LoxStmtList :=
  .cons c4ClassA
  (.cons c4ClassB
  (.cons (.classDecl (mkTok 29 "C") (.someE (.variable (mkTok 30 "B"))) .nil)
  (.cons (.awaitVarDecl (mkTok 31 "c")
    (.call (.variable (mkTok 32 "C")) (mkTok 33 "rp") .nil))
  (.cons (.awaitVarDecl (mkTok 34 "r")
    (.call (.get (.variable (mkTok 35 "c")) (mkTok 36 "test")) (mkTok 37 "rp")
      .nil))
  .nil))))

/-- The method table of a class. -/
def LoxClass.methodsOf : LoxClass → LoxMethodList
  | .mk _ _ ms => ms

/-- The strict superclass chain of a class, nearest first. -/
def superChain : LoxClass → List LoxClass
  | .mk _ .none _ => []
  | .mk _ (.some sc) _ => sc :: superChain sc

/-- Spec-side predicate for C4: some class strictly above `c` in the
superclass chain defines `k` in its own method table. -/
def definedInStrictAncestor (c : LoxClass) (k : String) : Bool :=
  (superChain c).any (fun d => (LoxClass.findMethodIn d.methodsOf k).isSome)

/-- Bare `return;` at the top level. -/
def c7BareReturn : LoxStmtList := .cons (.ret .noneE) .nil

/-- The body of the self-tail-recursive
`fun f(n) { if (n < 1) return 0; return f(n - 1); }`. -/
def c8body : LoxStmt := .block
  (.cons (.ifS (.binary (.variable (mkTok 42 "n")) .smaller (.literal (.num 1)))
    (.ret (.someE (.literal (.num 0)))) .noneS)
  (.cons (.ret (.someE (.call (.variable (mkTok 43 "f")) (mkTok 44 "rp")
    (.cons (.binary (.variable (mkTok 45 "n")) .minus (.literal (.num 1))) .nil))))
  .nil))

/-- `await r = nil; fun f(n) { ... } r = f(2);`. -/
def c8prog : LoxStmtList :=
  .cons (.awaitVarDecl (mkTok 46 "r") (.literal .nil))
  (.cons (.funDecl (mkTok 40 "f") [mkTok 41 "n"] c8body)
  (.cons (.stmtExpression (.assign (mkTok 47 "r")
    (.call (.variable (mkTok 48 "f")) (mkTok 49 "rp")
      (.cons (.literal (.num 2)) .nil))))
  .nil))

/-- A body whose evaluation raises a `TypeError` (`1 + true`). -/
def c9ErrBody : LoxStmt :=
  .stmtExpression (.binary (.literal (.num 1)) .plus (.literal (.bool true)))

/-- An empty class, the receiver class of the C9 witness. -/
def c9Class : LoxClass := .mk "K" .none .nil

/-- A closure value as `eval_expression`'s `Lambda` arm builds it from the
initial store: fresh id 0, fresh cache 0, capturing the root. -/
def c2WitFun : LoxCallable :=
  .function 0 [] (.ret .noneE) (Option.some 0) .none false rootHandle

/-- The store after that lambda evaluation: one allocated cache, next id 1. -/
def c2WitSt1 : LoxState :=
  { envs := [⟨[], Option.none⟩, ⟨[], Option.none⟩], insts := [], caches := [[]]
    tasks := [], nextId := 1, output := [] }

/-- `return g(1);` — a return whose expression is a direct call to `g`. -/
def c8WitBody : LoxStmt :=
  .ret (.someE (.call (.variable (mkTok 96 "g")) (mkTok 97 "rp")
    (.cons (.literal (.num 1)) .nil)))

/-- A function value whose body tail-calls the binding `g` (which holds this
very value below): id 77, one parameter `n`, no cache. -/
def c8WitFun : LoxCallable :=
  .function 77 [mkTok 95 "n"] c8WitBody Option.none .none false rootHandle

/-- A distance table resolving the `g` of `c8WitBody` at distance 0. -/
def c8WitLocals : LoxLocals :=
  [((96, (LoxExpr.variable (mkTok 96 "g")).keyStr), 0)]

/-- A store whose root binds `g` to `c8WitFun`. -/
def c8WitSt : LoxState :=
  { envs := [⟨[], Option.none⟩,
      ⟨[("g", .ready (.ok (.callable c8WitFun)))], Option.none⟩]
    insts := [], caches := [], tasks := [], nextId := 0, output := [] }

/-- `c8WitSt` after `bindParams` bound `n = 5` in the root frame. -/
def c8WitSt1 : LoxState :=
  { envs := [⟨[], Option.none⟩,
      ⟨[("g", .ready (.ok (.callable c8WitFun))),
        ("n", .ready (.ok (.number 5)))], Option.none⟩]
    insts := [], caches := [], tasks := [], nextId := 0, output := [] }

/-! Supporting lemmas about the store primitives. -/

theorem alistGet_insert_self {α : Type} (l : List (String × α)) (k : String)
    (v : α) : alistGet (alistInsert l k v) k = Option.some v := by
  induction l with
  | nil => simp [alistInsert, alistGet]
  | cons hd tl ih =>
      by_cases h : hd.fst = k
      · simp [alistInsert, alistGet, h]
      · simp [alistInsert, alistGet, h, ih]

theorem alistRemove_absent {α : Type} (l : List (String × α)) (k : String)
    (h : alistGet l k = Option.none) : alistRemove l k = (Option.none, l) := by
  induction l with
  | nil => simp [alistRemove]
  | cons hd tl ih =>
      by_cases hk : hd.fst = k
      · simp [alistGet, hk] at h
      · simp [alistGet, hk] at h
        simp [alistRemove, hk, ih h]

theorem listModify_fix {α : Type} (l : List α) (i : Nat) (f : α → α)
    (h : ∀ x, l[i]? = Option.some x → f x = x) : listModify l i f = l := by
  induction l generalizing i with
  | nil => simp [listModify]
  | cons hd tl ih =>
      match i with
      | 0 =>
          have := h hd (by simp)
          simp [listModify, this]
      | Nat.succ j =>
          simp only [listModify, List.cons.injEq, true_and]
          exact ih j (fun x hx => h x (by simpa using hx))

theorem listModify_get_self {α : Type} (l : List α) (i : Nat) (f : α → α)
    (x : α) (h : l[i]? = Option.some x) :
    (listModify l i f)[i]? = Option.some (f x) := by
  induction l generalizing i with
  | nil => simp at h
  | cons hd tl ih =>
      match i with
      | 0 => simp at h; simp [listModify, h]
      | Nat.succ j =>
          simp at h
          simp only [listModify, List.getElem?_cons_succ]
          exact ih j h

theorem envRemoveLocal_absent (st : LoxState) (h : Nat) (k : String)
    (hk : st.envGetLocal h k = Option.none) :
    st.envRemoveLocal h k = (Option.none, st) := by
  unfold LoxState.envRemoveLocal
  unfold LoxState.envGetLocal at hk
  match hnode : st.envNode h with
  | Option.none => simp [hnode]
  | Option.some nd =>
      rw [hnode] at hk
      simp only [hnode, alistRemove_absent nd.values k hk]
      have hfix : listModify st.envs h (fun nd2 => { nd2 with values := nd.values })
          = st.envs := by
        apply listModify_fix
        intro x hx
        have hxnd : nd = x := by
          unfold LoxState.envNode at hnode
          rw [hnode] at hx
          exact Option.some.inj hx
        rw [← hxnd]
      simp [hfix]

theorem putPrelude_absent (st : LoxState) (h : Nat) (k : String)
    (hk : st.envGetLocal h k = Option.none) : putPrelude st h k = (h, st) := by
  unfold putPrelude
  rw [envRemoveLocal_absent st h k hk]

theorem envInsert_getLocal_self (st : LoxState) (h : Nat) (k : String)
    (c : PackagedObject) (nd : EnvNode) (hnd : st.envNode h = Option.some nd) :
    (st.envInsert h k c).envGetLocal h k = Option.some c := by
  unfold LoxState.envInsert LoxState.envGetLocal LoxState.envNode
  unfold LoxState.envNode at hnd
  rw [listModify_get_self st.envs h _ nd hnd]
  simp [alistGet_insert_self]
/-- Inserting key `k` leaves every other key's lookup unchanged. -/
theorem alistGet_insert_ne {α : Type} (l : List (String × α)) (k k' : String)
    (v : α) (h : ¬ k = k') :
    alistGet (alistInsert l k v) k' = alistGet l k' := by
  have h2 : ¬ k' = k := fun heq => h heq.symm
  induction l with
  | nil => simp [alistInsert, alistGet, h, h2]
  | cons hd tl ih =>
      by_cases hk : hd.fst = k
      · simp [alistInsert, alistGet, hk, h, h2]
      · by_cases hk' : hd.fst = k'
        · simp [alistInsert, alistGet, hk, hk', h, h2]
        · simp [alistInsert, alistGet, hk, hk', h, h2, ih]

/-- Removing key `k` leaves every other key's lookup unchanged. -/
theorem alistRemove_get_ne {α : Type} (l : List (String × α)) (k k' : String)
    (h : ¬ k = k') :
    alistGet (alistRemove l k).snd k' = alistGet l k' := by
  have h2 : ¬ k' = k := fun heq => h heq.symm
  induction l with
  | nil => simp [alistRemove, alistGet]
  | cons hd tl ih =>
      by_cases hk : hd.fst = k
      · have hk' : ¬ hd.fst = k' := by rw [hk]; exact h
        simp [alistRemove, alistGet, hk, hk', h, h2]
      · by_cases hk' : hd.fst = k'
        · simp [alistRemove, alistGet, hk, hk', h, h2]
        · simp [alistRemove, alistGet, hk, hk', h, h2, ih]

/-- `listModify` preserves the length. -/
theorem listModify_length {α : Type} (l : List α) (i : Nat) (f : α → α) :
    (listModify l i f).length = l.length := by
  induction l generalizing i with
  | nil => rfl
  | cons hd tl ih =>
      match i with
      | 0 => rfl
      | Nat.succ j => simp [listModify, ih]

/-- Lookup at the modified index, in `Option.map` form. -/
theorem listModify_get_map {α : Type} (l : List α) (i : Nat) (f : α → α) :
    (listModify l i f)[i]? = (l[i]?).map f := by
  induction l generalizing i with
  | nil => rfl
  | cons hd tl ih =>
      match i with
      | 0 => simp [listModify]
      | Nat.succ j => simp [listModify, ih]

/-- `values.remove` preserves the number of environments. -/
theorem envRemoveLocal_envs_length (st : LoxState) (h : Nat) (k : String) :
    (st.envRemoveLocal h k).snd.envs.length = st.envs.length := by
  unfold LoxState.envRemoveLocal
  cases hnd : st.envNode h with
  | none => simp
  | some nd => simp [listModify_length]

/-- `values.insert` preserves the number of environments. -/
theorem envInsert_envs_length (st : LoxState) (h : Nat) (k : String)
    (c : PackagedObject) : (st.envInsert h k c).envs.length = st.envs.length := by
  simp [LoxState.envInsert, listModify_length]

/-- The `put` prelude can only grow the store (by the overlay). -/
theorem putPrelude_envs_le (st : LoxState) (h : Nat) (k : String) :
    st.envs.length ≤ (putPrelude st h k).snd.envs.length := by
  unfold putPrelude
  have hlen := envRemoveLocal_envs_length st h k
  cases hf : (st.envRemoveLocal h k).fst with
  | none => simp only [hf]; omega
  | some kv =>
      obtain ⟨k1, v1⟩ := kv
      simp only [hf, LoxState.allocEnv, List.length_append, List.length_cons,
        List.length_nil]
      omega

/-- `put_immediately` with a value can only grow the store. -/
theorem putImmediatelyObj_envs_le (st : LoxState) (h : Nat) (n : String)
    (a : LoxObject) :
    st.envs.length ≤ (putImmediatelyObj st h n a).envs.length := by
  unfold putImmediatelyObj
  rw [envInsert_envs_length]
  exact putPrelude_envs_le st h n

/-- Inserting a binding leaves other names in the same environment alone. -/
theorem envGetLocal_envInsert_ne (st : LoxState) (h : Nat) (k k' : String)
    (c : PackagedObject) (hne : ¬ k = k') :
    (st.envInsert h k c).envGetLocal h k' = st.envGetLocal h k' := by
  unfold LoxState.envInsert LoxState.envGetLocal LoxState.envNode
  rw [listModify_get_map]
  cases hnd : st.envs[h]? with
  | none => simp
  | some nd => simp [alistGet_insert_ne _ _ _ _ hne]

/-- Removing a binding leaves other names in the same environment alone. -/
theorem envGetLocal_envRemove_ne (st : LoxState) (h : Nat) (k k' : String)
    (hne : ¬ k = k') :
    (st.envRemoveLocal h k).snd.envGetLocal h k' = st.envGetLocal h k' := by
  unfold LoxState.envRemoveLocal LoxState.envGetLocal LoxState.envNode
  cases hnd : st.envs[h]? with
  | none => simp [hnd]
  | some nd =>
      rcases hrm : alistRemove nd.values k with ⟨found, values2⟩
      have hv : values2 = (alistRemove nd.values k).snd := by rw [hrm]
      simp only [hnd, hrm, listModify_get_map, Option.map_some]
      rw [hv]
      exact alistRemove_get_ne nd.values k k' hne

/-- Allocating a fresh environment does not change existing lookups. -/
theorem envGetLocal_alloc (st : LoxState) (nd : EnvNode) (h : Nat) (k : String)
    (hh : h < st.envs.length) :
    ((st.allocEnv nd).snd).envGetLocal h k = st.envGetLocal h k := by
  unfold LoxState.allocEnv LoxState.envGetLocal LoxState.envNode
  rw [List.getElem?_append_left hh]

/-- Every valid handle has a node. -/
theorem envNode_some_of_lt (st : LoxState) (h : Nat)
    (hh : h < st.envs.length) : ∃ nd, st.envNode h = Option.some nd := by
  unfold LoxState.envNode
  exact ⟨st.envs[h], List.getElem?_eq_getElem hh⟩

/-- `put_immediately` with a value installs exactly the `Ready` cell. -/
theorem putImmediatelyObj_getLocal_self (st : LoxState) (h : Nat) (n : String)
    (a : LoxObject) (hh : h < st.envs.length) :
    (putImmediatelyObj st h n a).envGetLocal h n
      = Option.some (.ready (.ok a)) := by
  have hlt : h < (putPrelude st h n).snd.envs.length :=
    Nat.lt_of_lt_of_le hh (putPrelude_envs_le st h n)
  obtain ⟨nd, hnd⟩ := envNode_some_of_lt _ _ hlt
  unfold putImmediatelyObj
  exact envInsert_getLocal_self _ _ _ _ nd hnd

/-- `put_immediately` with a value leaves every other name alone. -/
theorem putImmediatelyObj_getLocal_ne (st : LoxState) (h : Nat) (n m : String)
    (a : LoxObject) (hne : ¬ n = m) :
    (putImmediatelyObj st h n a).envGetLocal h m = st.envGetLocal h m := by
  unfold putImmediatelyObj putPrelude
  rcases hrm : st.envRemoveLocal h n with ⟨found, st'⟩
  have hpres : st'.envGetLocal h m = st.envGetLocal h m := by
    have := envGetLocal_envRemove_ne st h n m hne
    rw [hrm] at this
    exact this
  cases found with
  | none =>
      simp only
      rw [envGetLocal_envInsert_ne _ _ _ _ _ hne, hpres]
  | some kv =>
      have hltst : h < st.envs.length := by
        by_contra hge
        have hnone : st.envNode h = Option.none := by
          unfold LoxState.envNode
          exact List.getElem?_eq_none (Nat.le_of_not_lt hge)
        unfold LoxState.envRemoveLocal at hrm
        rw [hnone] at hrm
        simp at hrm
      have hlt' : h < st'.envs.length := by
        have hlen := envRemoveLocal_envs_length st h n
        rw [hrm] at hlen
        simp at hlen
        omega
      simp only
      rw [envGetLocal_envInsert_ne _ _ _ _ _ hne,
        envGetLocal_alloc _ _ _ _ hlt', hpres]

/-- Binding a list of parameters none of which is named `n` leaves the
binding of `n` in the frame unchanged. -/
theorem bindParams_getLocal_preserved :
    ∀ (params : List LoxToken) (args : List LoxObject) (envH : Nat)
      (st : LoxState) (n : String),
      (∀ q ∈ params, q.kind ≠ .identifier n) →
      (bindParams envH params args st).envGetLocal envH n
        = st.envGetLocal envH n := by
  intro params
  induction params with
  | nil => intro args envH st n _; rfl
  | cons p rest ih =>
      intro args envH st n hnames
      have hp : p.kind ≠ .identifier n := hnames p (List.mem_cons_self p rest)
      have hrest : ∀ q ∈ rest, q.kind ≠ .identifier n :=
        fun q hq => hnames q (List.mem_cons_of_mem p hq)
      cases hk : p.kind with
      | identifier n0 =>
          cases args with
          | nil => simp [bindParams, hk]
          | cons a more =>
              simp only [bindParams, hk]
              rw [ih more envH _ n hrest]
              apply putImmediatelyObj_getLocal_ne
              intro heq
              exact hp (by rw [hk, heq])
      | thisKw =>
          cases args with
          | nil => simp [bindParams, hk]
          | cons a more =>
              simp only [bindParams, hk]
              exact ih more envH st n hrest
      | superKw =>
          cases args with
          | nil => simp [bindParams, hk]
          | cons a more =>
              simp only [bindParams, hk]
              exact ih more envH st n hrest

/-- `bindParams` can only grow the store. -/
theorem bindParams_envs_le :
    ∀ (params : List LoxToken) (args : List LoxObject) (envH : Nat)
      (st : LoxState),
      st.envs.length ≤ (bindParams envH params args st).envs.length := by
  intro params
  induction params with
  | nil => intro args envH st; exact Nat.le_refl _
  | cons p rest ih =>
      intro args envH st
      cases hk : p.kind with
      | identifier n0 =>
          cases args with
          | nil => simp [bindParams, hk]
          | cons a more =>
              simp only [bindParams, hk]
              exact Nat.le_trans (putImmediatelyObj_envs_le st envH n0 a)
                (ih more envH _)
      | thisKw =>
          cases args with
          | nil => simp [bindParams, hk]
          | cons a more => simp only [bindParams, hk]; exact ih more envH st
      | superKw =>
          cases args with
          | nil => simp [bindParams, hk]
          | cons a more => simp only [bindParams, hk]; exact ih more envH st

/-- The parameter-binding loop binds positionally: after `bindParams`, an
identifier parameter at index `i` whose name no later parameter reuses reads
back as `Ready` with the `i`-th argument. -/
theorem bindParams_positional :
    ∀ (params : List LoxToken) (args : List LoxObject) (envH : Nat)
      (st : LoxState) (i : Nat) (p : LoxToken) (a : LoxObject) (n : String),
      envH < st.envs.length →
      params[i]? = Option.some p →
      args[i]? = Option.some a →
      p.kind = .identifier n →
      (∀ j q, i < j → params[j]? = Option.some q → q.kind ≠ .identifier n) →
      (bindParams envH params args st).envGetLocal envH n
        = Option.some (.ready (.ok a)) := by
  intro params
  induction params with
  | nil =>
      intro args envH st i p a n _ hpi _ _ _
      simp at hpi
  | cons p0 rest ih =>
      intro args envH st i p a n hvalid hpi hai hkind hlater
      cases args with
      | nil => simp at hai
      | cons a0 more =>
          cases i with
          | zero =>
              have hp0 : p0 = p := by simpa using hpi
              have ha0 : a0 = a := by simpa using hai
              have hkind0 : p0.kind = .identifier n := by rw [hp0]; exact hkind
              rw [← ha0]
              simp only [bindParams, hkind0]
              rw [bindParams_getLocal_preserved rest more envH _ n ?hrest]
              · exact putImmediatelyObj_getLocal_self st envH n a0 hvalid
              case hrest =>
                intro q hq
                obtain ⟨j, hj⟩ := List.mem_iff_getElem?.mp hq
                exact hlater (j + 1) q (Nat.succ_pos j) (by simpa using hj)
          | succ j =>
              have hpi' : rest[j]? = Option.some p := by simpa using hpi
              have hai' : more[j]? = Option.some a := by simpa using hai
              have hlater' :
                  ∀ j' q, j < j' → rest[j']? = Option.some q →
                    q.kind ≠ .identifier n :=
                fun j' q hj' hq =>
                  hlater (j' + 1) q (Nat.succ_lt_succ hj') (by simpa using hq)
              cases hk : p0.kind with
              | identifier n0 =>
                  simp only [bindParams, hk]
                  exact ih more envH (putImmediatelyObj st envH n0 a0) j p a n
                    (Nat.lt_of_lt_of_le hvalid
                      (putImmediatelyObj_envs_le st envH n0 a0))
                    hpi' hai' hkind hlater'
              | thisKw =>
                  simp only [bindParams, hk]
                  exact ih more envH st j p a n hvalid hpi' hai' hkind hlater'
              | superKw =>
                  simp only [bindParams, hk]
                  exact ih more envH st j p a n hvalid hpi' hai' hkind hlater'

/-! Per-claim theorems. -/

/-- C1 (counterexample): the claim as stated is false on the code.  For
`var x = 5;` the evaluator binds a `Pending` cell and enqueues the
initializer on the worker pool (it does *not* bind `Ready(5)` as the claim
requires), while for `await x = 5;` it evaluates synchronously and binds
`Ready(5)` with nothing handed to the pool (the claim requires `Pending`
plus a scheduled task): the claim has the two statement forms exactly
swapped. -/
theorem c1_counterexample :
    (evalStatement true 9 [] ⟨rootHandle⟩ c1VarStmt initState).fst = .ok ()
  ∧ (evalStatement true 9 [] ⟨rootHandle⟩ c1VarStmt initState).snd.envGetLocal
      rootHandle "x" = Option.some .pending
  ∧ (evalStatement true 9 [] ⟨rootHandle⟩ c1VarStmt initState).snd.tasks.length
      = 1
  ∧ (evalStatement true 9 [] ⟨rootHandle⟩ c1AwaitStmt initState).snd.envGetLocal
      rootHandle "x" = Option.some (.ready (.ok (.number 5)))
  ∧ (evalStatement true 9 [] ⟨rootHandle⟩ c1AwaitStmt initState).snd.tasks.length
      = 0
  ∧ (PackagedObject.pending ≠ .ready (.ok (.number 5))) :=
  ⟨rfl, rfl, rfl, rfl, rfl, fun h => nomatch h⟩

/-- C2 (counterexample): the claim that a call's fresh environment is
parented to the closure-captured environment is false.  Running `c2prog`,
the function value bound to `f` captured the root environment
(`closure = rootHandle = 1`), but the call frame allocated for `f(10)`
(handle 3) is parented to the *block environment at the call site*
(handle 2), and the two differ. -/
theorem c2_counterexample :
    closureOfBinding (runProgram true 99 c2prog).snd "f" = Option.some rootHandle
  ∧ envParent (runProgram true 99 c2prog).snd 3 = Option.some (Option.some 2)
  ∧ rootHandle ≠ 2 :=
  ⟨rfl, rfl, by decide⟩

/-- C2 (amended): for *every* call, once the callee has evaluated to a
callable and the arguments have been evaluated, the `Call` arm hands the
invocation a *freshly allocated* environment (its handle did not exist
before) whose enclosing environment is the caller's current environment
`ex.environment` at the call site — the closure-captured environment is
never consulted; and for *every* parameter list the binding loop that runs
before the body binds each identifier parameter (whose name no later
parameter shadows) positionally as a `Ready` cell holding its argument in
that frame (`callLoop` executes the body exactly against
`bindParams ex.environment params args`). -/
theorem c2_amended_caller_env_parent_general :
    (∀ (tc : Bool) (f : Nat) (L : LoxLocals) (ex : LoxExec) (callee : LoxExpr)
        (paren : LoxToken) (argEs : LoxExprList) (st st1 st2 : LoxState)
        (c : LoxCallable) (argv : List LoxObject),
      evalExpression tc f L ex callee st = (.ok (.callable c), st1) →
      evalArgs tc f L ex argEs st1 = (.ok argv, st2) →
      (evalExpression tc (f + 1) L ex (.call callee paren argEs) st
          = callCallable tc f L c ⟨st2.envs.length⟩ argv
              { st2 with envs := st2.envs ++ [⟨[], Option.some ex.environment⟩] }
        ∧ st2.envNode st2.envs.length = Option.none
        ∧ LoxState.envNode
            { st2 with envs := st2.envs ++ [⟨[], Option.some ex.environment⟩] }
            st2.envs.length
            = Option.some ⟨[], Option.some ex.environment⟩))
  ∧ (∀ (params : List LoxToken) (args : List LoxObject) (envH : Nat)
        (st : LoxState) (i : Nat) (p : LoxToken) (a : LoxObject) (n : String),
      envH < st.envs.length →
      params[i]? = Option.some p →
      args[i]? = Option.some a →
      p.kind = .identifier n →
      (∀ j q, i < j → params[j]? = Option.some q → q.kind ≠ .identifier n) →
      (bindParams envH params args st).envGetLocal envH n
        = Option.some (.ready (.ok a))) := by
  constructor
  · intro tc f L ex callee paren argEs st st1 st2 c argv hCallee hArgs
    refine ⟨?_, ?_, ?_⟩
    · simp only [evalExpression, hCallee, hArgs, LoxState.allocEnv]
    · unfold LoxState.envNode
      exact List.getElem?_eq_none (Nat.le_refl _)
    · unfold LoxState.envNode
      exact List.getElem?_concat_length _ _
  · exact bindParams_positional

/-- C2 (witness): the amended statement instantiated at a concrete call —
the zero-argument call of a freshly built lambda from the initial store
invokes `callCallable` on the frame allocated at handle 2 with the root
(= the call-site environment) as its parent, and a one-parameter binding
list reads back positionally. -/
theorem c2_amended_caller_env_parent_general_witness :
    (evalExpression true 10 [] ⟨rootHandle⟩
        (.call (.lambda [] (.ret .noneE)) (mkTok 90 "rp") .nil) initState
      = callCallable true 9 [] c2WitFun ⟨c2WitSt1.envs.length⟩ []
          { c2WitSt1 with
              envs := c2WitSt1.envs ++ [⟨[], Option.some rootHandle⟩] })
  ∧ (bindParams rootHandle [mkTok 91 "p"] [.number 1] initState).envGetLocal
      rootHandle "p" = Option.some (.ready (.ok (.number 1))) :=
  ⟨(c2_amended_caller_env_parent_general.1 true 9 [] ⟨rootHandle⟩
      (.lambda [] (.ret .noneE)) (mkTok 90 "rp") .nil initState c2WitSt1
      c2WitSt1 c2WitFun [] rfl rfl).1,
   c2_amended_caller_env_parent_general.2 [mkTok 91 "p"] [.number 1]
      rootHandle initState 0 (mkTok 91 "p") (.number 1) "p" (by decide) rfl
      rfl rfl
      (fun j q hj hq => by
        cases j with
        | zero => omega
        | succ jj => simp at hq)⟩

/-- C3 (code bug): the `Logical` arm of `eval_expression` destructures the
tuple as `Logical(right, operator, left)` although the parser, the resolver
and the AST `Display` impl all build and read it as `(left, operator,
right)`; evaluation therefore starts with the syntactically *right* operand
and short-circuits on it.  At the failing inputs: `1 or 2` evaluates to `2`
(the claim and every other component of the system require `1`), and
`false and nil` evaluates to `nil` (the claim requires `false`). -/
theorem c3_code_divergence :
    evalExpression true 9 [] ⟨rootHandle⟩ c3OrExpr initState
      = (.ok (.number 2), initState)
  ∧ evalExpression true 9 [] ⟨rootHandle⟩ c3AndExpr initState
      = (.ok .nil, initState) :=
  ⟨rfl, rfl⟩

/-- C4 (counterexample): `super.m()` does not start at the immediate
superclass of the class where the executing method was defined.  In
`c4prog`, `test` is defined in `B` (immediate superclass `A`, whose `m`
returns `"A"`), but the receiver is a `C` instance and the walk starts at
`C`'s immediate superclass `B`, finding `B.m` and storing `"B"`. -/
theorem c4_counterexample :
    (runProgram true 99 c4prog).fst = .ok ()
  ∧ (runProgram true 99 c4prog).snd.envGetLocal rootHandle "r"
      = Option.some (.ready (.ok (.loxString "B")))
  ∧ ("B" : String) ≠ "A" :=
  ⟨rfl, rfl, by decide⟩

/-- C5 (counterexample): `"a" + 1` succeeds (the left-`String` arm of
`impl Add` stringifies *any* right operand), whereas the claim requires a
`TypeError` for a `String` plus a non-`String`. -/
theorem c5_counterexample :
    LoxObject.add (.loxString "a") (.number 1) = .ok (.loxString "a1") :=
  rfl

/-- C5 (amended): `l + r` succeeds exactly when the left operand is a
`String` (the right operand is then stringified and concatenated, whatever
its type) or both operands are `Number`s; in particular a `String` on the
*right* with a non-`String` left is still a `TypeError`. -/
theorem c5_amended_add_success_iff :
    ∀ l r : LoxObject, exceptOk (LoxObject.add l r) = true ↔
      ((∃ s, l = .loxString s) ∨ ∃ a b, l = .number a ∧ r = .number b) := by
  intro l r
  cases l <;> cases r <;> simp [LoxObject.add, exceptOk]

/-- C6 (counterexample): the script runner uses the *same* exit status 65
both for an unreadable script file and for an error during
scan/parse/resolve/execute, so the two categories are not distinct. -/
theorem c6_counterexample :
    mainExitFor false (.ok ())
      = mainExitFor true (.error (.runtimeError Option.none "boom")) :=
  rfl

/-- C6 (amended): both failure categories exit with the same non-zero
status 65 (not two distinct codes); the only distinct codes are 64 for a
usage error and 0 for success. -/
theorem c6_amended_single_failure_code :
    (∀ r : Except LoxError Unit, mainExitFor false r = 65)
  ∧ (∀ e : LoxError, mainExitFor true (.error e) = 65)
  ∧ mainExitFor true (.ok ()) = 0
  ∧ usageExitCode = 64
  ∧ (65 : Nat) ≠ 0 :=
  ⟨fun _ => rfl, fun _ => rfl, rfl, rfl, by decide⟩

/-- C7 (counterexample): a bare `return;` outside any function is *not*
rejected by the resolver (`return_statement` only matches
`Return(Some(expr))`): resolution succeeds with the resolver unchanged, and
the program then reaches evaluation, where the executor emits the unhandled
`Return` signal. -/
theorem c7_counterexample :
    resolveProgram 9 c7BareReturn = .ok Resolver.new
  ∧ (runProgram true 9 c7BareReturn).fst
      = .error (.returnSignal rootHandle .noneE) :=
  ⟨rfl, rfl⟩

/-- C7 (amended): the resolver rejects `return <expr>` outside any function
and `return <expr>` inside a class initializer, but accepts a bare
`return;` unconditionally, in any context. -/
theorem c7_amended_return_rules :
    (∀ (scopes : List (List (String × Bool))) (cc : ClassType)
        (loc : LoxLocals) (e : LoxExpr) (f : Nat),
      resolveStatement (f + 1) ⟨scopes, .none, cc, loc⟩ (.ret (.someE e))
          = .error (.parseError Option.none "Cant return from top-level code.")
      ∧ resolveStatement (f + 1) ⟨scopes, .initializer, cc, loc⟩
          (.ret (.someE e))
          = .error (.parseError Option.none "Cant return inside from initializer"))
  ∧ (∀ (rs : Resolver) (f : Nat),
      resolveStatement (f + 1) rs (.ret .noneE) = .ok rs) :=
  ⟨fun _ _ _ _ _ => ⟨rfl, rfl⟩, fun _ _ => rfl⟩

/-- C8 (counterexample): the tail-call iteration is *not* equivalent to a
plain recursive invocation.  On `c8prog` (`f(2)` for self-tail-recursive
`f`), the source semantics (tail iteration, `tc = true`) completes with
`r = Ready(0)`, while the spec-modelled plain recursion (`tc = false`)
panics: the recursive call deepens the dynamic environment chain, so the
resolver distance 2 recorded for `f` inside the body lands on the previous
call's empty block environment and `lookup_variable`'s `.unwrap()` fails. -/
theorem c8_counterexample :
    (runProgram true 99 c8prog).fst = .ok ()
  ∧ (runProgram true 99 c8prog).snd.envGetLocal rootHandle "r"
      = Option.some (.ready (.ok (.number 0)))
  ∧ (runProgram false 99 c8prog).fst = .error .panicked
  ∧ ((Except.ok () : Except LoxError Unit) ≠ .error .panicked) :=
  ⟨rfl, rfl, rfl, fun h => nomatch h⟩

/-- C8 (amended): for *every* invocation of a user-defined function (past
the memo-cache probe) whose body execution yields a `Return` signal carrying
a direct call expression whose callee evaluates, in the return-site
environment, to a callable identity-equal to the invoked one, the loop
re-evaluates that call's arguments there and re-enters with the *same*
executor `ex` — so the next iteration re-binds the parameters in the same
call frame (`bindParams ex.environment`) and re-executes the body
iteratively instead of recursing.  This iterative execution is however not
equivalent to a plain recursive invocation: on `c8prog` the source semantics
completes while the spec-modelled plain recursion panics, because recursion
deepens the dynamic environment chain under the resolver's recorded
distances. -/
theorem c8_amended_tail_iteration_general :
    (∀ (f : Nat) (L : LoxLocals) (id : Nat) (params : List LoxToken)
        (body : LoxStmt) (cache : Option Nat) (thisO : LoxOptInst)
        (isInit : Bool) (clos : Nat) (ex : LoxExec) (args : List LoxObject)
        (st st2 st3 st4 : LoxState) (innerEnv : Nat) (callee2 : LoxExpr)
        (paren2 : LoxToken) (args2 : LoxExprList) (c2 : LoxCallable)
        (newArgs : List LoxObject),
      cacheProbe cache (.function id params body cache thisO isInit clos)
          args st = Option.none →
      evalStatement true f L ex body
          (bindParams ex.environment params args st)
        = (.error (.returnSignal innerEnv
            (.someE (.call callee2 paren2 args2))), st2) →
      evalExpression true f L ⟨innerEnv⟩ callee2 st2
        = (.ok (.callable c2), st3) →
      c2.beq (.function id params body cache thisO isInit clos) = true →
      evalArgs true f L ⟨innerEnv⟩ args2 st3 = (.ok newArgs, st4) →
      callLoop true (f + 1) L
          (.function id params body cache thisO isInit clos) ex args st
        = callLoop true f L
            (.function id params body cache thisO isInit clos) ex newArgs st4)
  ∧ (runProgram true 99 c8prog).fst = .ok ()
  ∧ (runProgram false 99 c8prog).fst = .error .panicked := by
  refine ⟨?_, rfl, rfl⟩
  intro f L id params body cache thisO isInit clos ex args st st2 st3 st4
    innerEnv callee2 paren2 args2 c2 newArgs hProbe hBody hCallee hBeq hArgs
  simp only [callLoop, hProbe, hBody, hCallee, hBeq, hArgs]
  rw [if_pos trivial, if_pos trivial]

/-- C8 (witness): the loop-step equation instantiated at a concrete
one-parameter function whose body tail-calls itself through the binding
`g`: the invocation at `n = 5` steps to the next iteration at `n = 1`
with the same executor. -/
theorem c8_amended_tail_iteration_general_witness :
    callLoop true 10 c8WitLocals c8WitFun ⟨rootHandle⟩ [.number 5] c8WitSt
      = callLoop true 9 c8WitLocals c8WitFun ⟨rootHandle⟩ [.number 1]
          c8WitSt1 :=
  c8_amended_tail_iteration_general.1 9 c8WitLocals 77 [mkTok 95 "n"]
    c8WitBody Option.none .none false rootHandle ⟨rootHandle⟩ [.number 5]
    c8WitSt c8WitSt1 c8WitSt1 c8WitSt1 rootHandle
    (.variable (mkTok 96 "g")) (mkTok 97 "rp")
    (.cons (.literal (.num 1)) .nil) c8WitFun [.number 1]
    rfl rfl rfl rfl rfl

/-- `find_method` finds a method exactly when the class itself or some
strict ancestor defines it (auxiliary for C4). -/
theorem findMethod_isSome_eq : ∀ (c : LoxClass) (k : String),
    (c.findMethod k).isSome
      = ((LoxClass.findMethodIn c.methodsOf k).isSome
          || definedInStrictAncestor c k)
  | .mk n .none ms, k => by
      cases h : LoxClass.findMethodIn ms k <;>
        simp [LoxClass.findMethod, LoxClass.methodsOf, definedInStrictAncestor,
          superChain, h]
  | .mk n (.some sc) ms, k => by
      have ih := findMethod_isSome_eq sc k
      cases h : LoxClass.findMethodIn ms k with
      | some m =>
          simp [LoxClass.findMethod, LoxClass.methodsOf, definedInStrictAncestor,
            superChain, h]
      | none =>
          simp [LoxClass.findMethod, LoxClass.methodsOf, definedInStrictAncestor,
            superChain, h, ih]

/-- C4 (amended): the `Super` walk of `eval_expression` (embedded as
`superFindMethod`, searching from the *receiver instance's class*) finds a
method exactly when some class *strictly above the receiver's class* defines
it — and the `Super` arm produces the `Undefined property` runtime error in
exactly the complementary case.  The class in which the executing method was
defined plays no role. -/
theorem c4_amended_super_walks_receiver_chain : ∀ (c : LoxClass) (k : String),
    (superFindMethod c k).isSome = definedInStrictAncestor c k
  | .mk n .none ms, k => by
      simp [superFindMethod, definedInStrictAncestor, superChain]
  | .mk n (.some sc) ms, k => by
      have ih := c4_amended_super_walks_receiver_chain sc k
      have hf := findMethod_isSome_eq sc k
      cases h : sc.findMethod k with
      | some m =>
          rw [h] at hf
          simp only [Option.isSome_some, Eq.comm] at hf
          simp [superFindMethod, h, definedInStrictAncestor, superChain,
            LoxClass.methodsOf]
          simpa [definedInStrictAncestor, LoxClass.methodsOf] using hf
      | none =>
          rw [h] at hf
          simp only [Option.isSome_none] at hf
          simp [superFindMethod, h, definedInStrictAncestor, superChain,
            LoxClass.methodsOf] at ih ⊢
          simp [definedInStrictAncestor, LoxClass.methodsOf] at hf
          rcases hf with ⟨h1, h2⟩
          simp [ih, h1, h2]

/-- C1 (amended): for every `var` statement *with* an initializer the
evaluator binds a `Pending` cell and hands the (unevaluated) initializer to
the worker pool, the statement returning immediately; a `var` without an
initializer binds `Ready(Nil)`; an `await`-var evaluates its initializer
synchronously on the current thread and binds the `Ready` result (errors
included), scheduling nothing.  Stated for a name with no prior binding in
the declaring environment, so the overlay coincides with the environment
itself. -/
theorem c1_amended_var_deferred_await_sync :
    ∀ (tc : Bool) (g : Nat) (L : LoxLocals) (ex : LoxExec) (tid tline : Nat)
      (name : String) (e : LoxExpr) (st : LoxState) (nd : EnvNode),
      st.envNode ex.environment = Option.some nd →
      st.envGetLocal ex.environment name = Option.none →
      (((evalStatement tc (g + 2) L ex
            (.varDecl ⟨tid, .identifier name, tline⟩ (.someE e)) st).fst = .ok ()
        ∧ (evalStatement tc (g + 2) L ex
            (.varDecl ⟨tid, .identifier name, tline⟩ (.someE e)) st).snd.envGetLocal
            ex.environment name = Option.some .pending
        ∧ (evalStatement tc (g + 2) L ex
            (.varDecl ⟨tid, .identifier name, tline⟩ (.someE e)) st).snd.tasks
            = st.tasks ++ [⟨ex.environment, ex.environment, name, e⟩])
      ∧ evalStatement tc (g + 2) L ex
          (.varDecl ⟨tid, .identifier name, tline⟩ .noneE) st
          = (.ok (), st.envInsert ex.environment name (.ready (.ok .nil)))
      ∧ evalStatement tc (g + 2) L ex
          (.awaitVarDecl ⟨tid, .identifier name, tline⟩ e) st
          = (.ok (), (evalExpression tc g L ex e st).snd.envInsert
              ex.environment name (.ready (evalExpression tc g L ex e st).fst))) := by
  intro tc g L ex tid tline name e st nd hnd habs
  have hrm := envRemoveLocal_absent st ex.environment name habs
  refine ⟨⟨?_, ?_, ?_⟩, ?_, ?_⟩
  · simp [evalStatement, putDeferred, hrm]
  · simp only [evalStatement, putDeferred, hrm]
    exact envInsert_getLocal_self _ _ _ _ nd hnd
  · simp [evalStatement, putDeferred, hrm, LoxState.envInsert]
  · simp [evalStatement, putImmediatelyObj, putPrelude, hrm]
  · simp [evalStatement, putImmediately, putPrelude, hrm]

/-- C1 (witness): the amended statement instantiated at `var w = 5;` in the
fresh root environment: the cell is left `Pending`. -/
theorem c1_amended_var_deferred_await_sync_witness :
    (evalStatement true 5 [] ⟨rootHandle⟩
        (.varDecl ⟨1, .identifier "w", 1⟩ (.someE (.literal (.num 5))))
        initState).snd.envGetLocal rootHandle "w" = Option.some .pending :=
  (c1_amended_var_deferred_await_sync true 3 [] ⟨rootHandle⟩ 1 1 "w"
    (.literal (.num 5)) initState ⟨[], Option.none⟩ rfl rfl).1.2.1

/-- C9: if the body of a bound class initializer (`is_initializer = true`,
`this` bound, no memo cache — exactly how `bind` builds the callable that
`Class::call` invokes) evaluates to any error that is not a `Return`
signal, the invocation loop swallows the error and returns the bound
instance as a *success* value, in the state the failing body left behind;
the constructor call then completes normally (its `Class` arm discards even
this result and yields the instance). -/
theorem c9_init_error_returns_instance :
    ∀ (tc : Bool) (f : Nat) (L : LoxLocals) (id : Nat)
      (params : List LoxToken) (body : LoxStmt) (iid : Nat) (cls : LoxClass)
      (fh clos : Nat) (ex : LoxExec) (args : List LoxObject)
      (st st2 : LoxState) (e : LoxError),
      evalStatement tc f L ex body (bindParams ex.environment params args st)
        = (.error e, st2) →
      (∀ env oe, e ≠ .returnSignal env oe) →
      callLoop tc (f + 1) L
        (.function id params body Option.none (.some iid cls fh) true clos)
        ex args st
        = (.ok (.instance iid cls fh), st2) := by
  intro tc f L id params body iid cls fh clos ex args st st2 e hEval hNotRet
  simp only [callLoop]
  rw [hEval]
  cases e with
  | returnSignal env oe => exact absurd rfl (hNotRet env oe)
  | parseError l m => rfl
  | runtimeError l m => rfl
  | typeError t => rfl
  | internalError m => rfl
  | blockedPending => rfl
  | panicked => rfl
  | outOfFuel => rfl

/-- C9 (witness): a concrete initializer body raising a `TypeError`
(`1 + true;`): the invocation still returns the instance. -/
theorem c9_init_error_returns_instance_witness :
    callLoop true 4 []
      (.function 7 [] c9ErrBody Option.none (.some 5 c9Class 0) true rootHandle)
      ⟨rootHandle⟩ [] initState
      = (.ok (.instance 5 c9Class 0), initState) :=
  c9_init_error_returns_instance true 3 [] 7 [] c9ErrBody 5 c9Class 0
    rootHandle ⟨rootHandle⟩ [] initState initState (.typeError "Number")
    (by rfl) (fun _ _ h => nomatch h)

/-- C10: when the resolver recorded a distance for an assignment target but
the runtime ancestor walk falls off the environment chain (`ancestor`, and
hence `assign_at`, returns `None`), the assignment writes nothing — the
final state is exactly the state the right-hand side evaluation produced —
yet the assignment expression still evaluates successfully to the assigned
value; the dropped `Option` never surfaces as an error. -/
theorem c10_assign_at_miss_is_silent :
    ∀ (tc : Bool) (f : Nat) (L : LoxLocals) (ex : LoxExec) (tid tline : Nat)
      (name : String) (e : LoxExpr) (st st1 : LoxState) (v : LoxObject)
      (d : Nat),
      localsGet L
          (tid, (LoxExpr.assign ⟨tid, .identifier name, tline⟩ e).keyStr)
        = Option.some d →
      evalExpression tc f L ex e st = (.ok v, st1) →
      st1.ancestorH ex.environment d = Option.none →
      evalExpression tc (f + 1) L ex
          (.assign ⟨tid, .identifier name, tline⟩ e) st = (.ok v, st1)
      ∧ st1.assignAt ex.environment d name v = Option.none := by
  intro tc f L ex tid tline name e st st1 v d hLoc hEval hAnc
  constructor
  · simp only [evalExpression, hLoc]
    rw [hEval]
    simp [LoxState.assignAt, hAnc]
  · simp [LoxState.assignAt, hAnc]

/-- C10 (witness): distance 5 recorded for `w = 7` evaluated at the root
environment (chain of length 1): `assign_at` misses, nothing is written,
and the assignment still yields `7`. -/
theorem c10_assign_at_miss_is_silent_witness :
    evalExpression true 4
        [((1, (LoxExpr.assign ⟨1, .identifier "w", 1⟩
            (.literal (.num 7))).keyStr), 5)]
        ⟨rootHandle⟩ (.assign ⟨1, .identifier "w", 1⟩ (.literal (.num 7)))
        initState = (.ok (.number 7), initState) :=
  (c10_assign_at_miss_is_silent true 3
    [((1, (LoxExpr.assign ⟨1, .identifier "w", 1⟩
        (.literal (.num 7))).keyStr), 5)]
    ⟨rootHandle⟩ 1 1 "w" (.literal (.num 7)) initState initState
    (.number 7) 5 (by rfl) (by rfl) (by rfl)).1
